import Mathlib

/-!
Verification of the yapl dependency-acquisition and launch-orchestration
engine (Go sources under internal/archive, internal/dependency,
internal/command, internal/config, internal/fs, internal/app).

The Go code is shallowly embedded: paths are segment lists relative to the
tool's working root (`fs.MustGetAbsolutePath` is modelled as the identity,
i.e. the working directory is taken as the path root), the filesystem is an
explicit finite map from paths to nodes, and every effectful Go function
becomes a function on an explicit state `St` threaded through the calls.
Ambient inputs (the network, the decoded tar streams, the process
environment, exit statuses of spawned commands) are fields of a read-only
`World` value: within a single invocation of the tool the network and the
environment are treated as time-invariant, which matches the single
sequential pass the code performs.
-/

namespace Yapl

abbrev Err := String
abbrev Segs := List String

/-- A filesystem node: directory, regular file, or symbolic link.
Permission bits are carried as a `Nat` (`os.FileMode`). -/
inductive Node where
  | dir (mode : Nat)
  | file (content : String) (mode : Nat)
  | symlink (target : String)
deriving Repr, DecidableEq

/-- The filesystem: an association list from path (segment list) to node.
Keys are kept unique by construction (`FS.set` removes the old binding). -/
structure FS where
  entries : List (Segs × Node)
deriving Repr, DecidableEq

def FS.empty : FS := ⟨[]⟩

def FS.lookup (fs : FS) (p : Segs) : Option Node :=
  (fs.entries.find? (fun e => e.1 == p)).map (·.2)

def FS.set (fs : FS) (p : Segs) (n : Node) : FS :=
  ⟨(p, n) :: fs.entries.filter (fun e => !(e.1 == p))⟩

/-- `q` lies strictly below `p` in the tree. -/
def strictUnder (p q : Segs) : Bool := p.isPrefixOf q && q != p

/-- Some node exists strictly below `p`. -/
def FS.existsUnder (fs : FS) (p : Segs) : Bool :=
  fs.entries.any (fun e => strictUnder p e.1)

/-- Model of `fs.DirExistsAndIsNotEmpty` (part_001): `os.Open` + `IsDir` +
`Readdirnames(1)` — true iff `p` is an existing directory with at least one
entry below it. -/
def DirExistsAndIsNotEmpty (fs : FS) (p : Segs) : Bool :=
  match fs.lookup p with
  | some (Node.dir _) => fs.existsUnder p
  | _ => false

/-- One step of `os.MkdirAll`: create `p` if missing; an existing directory
is left untouched; an existing non-directory is an error. -/
def FS.mkdirOne (fs : FS) (p : Segs) (mode : Nat) : Except Err FS :=
  match fs.lookup p with
  | some (Node.dir _) => Except.ok fs
  | some _ => Except.error "mkdir: not a directory"
  | none => Except.ok (fs.set p (Node.dir mode))

/-- Worker for `os.MkdirAll`: create `base ++ parts` segment by segment. -/
def FS.mkdirParts (fs : FS) (base : Segs) (parts : Segs) (mode : Nat) : Except Err FS :=
  match parts with
  | [] => Except.ok fs
  | x :: rest =>
      match FS.mkdirOne fs (base ++ [x]) mode with
      | Except.error e => Except.error e
      | Except.ok fs1 => FS.mkdirParts fs1 (base ++ [x]) rest mode

/-- Model of `os.MkdirAll(p, mode)`: create every missing prefix of `p`
as a directory with the given mode. -/
def FS.mkdirAll (fs : FS) (p : Segs) (mode : Nat) : Except Err FS :=
  FS.mkdirParts fs [] p mode

/-- The immediate parent of `p` exists as a directory (the root `[]`
always exists). Used to model `ENOENT` on creation calls. -/
def FS.parentOk (fs : FS) (p : Segs) : Bool :=
  p.dropLast = [] ||
    match fs.lookup p.dropLast with
    | some (Node.dir _) => true
    | _ => false

/-- Model of `os.WriteFile(p, content, mode)`: create (with `mode`) or
truncate-and-rewrite; fails on a directory or a missing parent. Writing
through a symlink is not exercised by the code paths verified here and is
modelled as an error. -/
def FS.writeFile (fs : FS) (p : Segs) (content : String) (mode : Nat) : Except Err FS :=
  match fs.lookup p with
  | some (Node.dir _) => Except.error "write: is a directory"
  | some (Node.symlink _) => Except.error "write: symlink target not modelled"
  | some (Node.file _ m) => Except.ok (fs.set p (Node.file content m))
  | none =>
      if fs.parentOk p then Except.ok (fs.set p (Node.file content mode))
      else Except.error "write: no such directory"

/-- Model of `os.ReadFile p`. -/
def FS.readFile (fs : FS) (p : Segs) : Except Err String :=
  match fs.lookup p with
  | some (Node.file c _) => Except.ok c
  | some _ => Except.error "read: not a regular file"
  | none => Except.error "read: no such file"

/-- Model of `os.OpenFile(p, O_CREATE|O_RDWR, mode)` followed by copying
`content` from offset 0 (note: no `O_TRUNC` in the source, so the tail of a
longer pre-existing file survives). -/
def FS.openCreateRW (fs : FS) (p : Segs) (content : String) (mode : Nat) : Except Err FS :=
  match fs.lookup p with
  | some (Node.dir _) => Except.error "create file: is a directory"
  | some (Node.symlink _) => Except.error "create file: symlink target not modelled"
  | some (Node.file old m) =>
      Except.ok (fs.set p (Node.file (content ++ old.drop content.length) m))
  | none =>
      if fs.parentOk p then Except.ok (fs.set p (Node.file content mode))
      else Except.error "create file: no such directory"

/-- Model of `os.Symlink(target, p)`: fails if `p` already exists. -/
def FS.symlinkNew (fs : FS) (target : String) (p : Segs) : Except Err FS :=
  match fs.lookup p with
  | some _ => Except.error "create symlink: file exists"
  | none =>
      if fs.parentOk p then Except.ok (fs.set p (Node.symlink target))
      else Except.error "create symlink: no such directory"

/-- Model of `os.Rename(p, q)`: relocates the node and its whole subtree.
The destination is required fresh (all call sites move to a fresh name). -/
def FS.rename (fs : FS) (p q : Segs) : Except Err FS :=
  match fs.lookup p with
  | none => Except.error "rename: no such file"
  | some _ =>
      if (fs.lookup q).isSome then Except.error "rename: destination exists"
      else Except.ok ⟨fs.entries.map (fun e =>
        if p.isPrefixOf e.1 then (q ++ e.1.drop p.length, e.2) else e)⟩

/-- Model of `os.Remove p`: fails on a missing path or a non-empty directory. -/
def FS.removeOne (fs : FS) (p : Segs) : Except Err FS :=
  match fs.lookup p with
  | none => Except.error "remove: no such file"
  | some (Node.dir _) =>
      if fs.existsUnder p then Except.error "remove: directory not empty"
      else Except.ok ⟨fs.entries.filter (fun e => !(e.1 == p))⟩
  | some _ => Except.ok ⟨fs.entries.filter (fun e => !(e.1 == p))⟩

/-- Model of `os.RemoveAll p`: deletes `p` and everything below it;
never fails. -/
def FS.removeAll (fs : FS) (p : Segs) : FS :=
  ⟨fs.entries.filter (fun e => !(p.isPrefixOf e.1))⟩

/-- Model of `fs.CopyFile src dst` (part_001): open the source, create
(truncate) the destination, copy, and chmod the destination to the
source's mode. -/
def FS.copyFile (fs : FS) (src dst : Segs) : Except Err FS :=
  match fs.lookup src with
  | some (Node.file c m) =>
      match fs.lookup dst with
      | some (Node.dir _) => Except.error "copy: destination is a directory"
      | some _ => Except.ok (fs.set dst (Node.file c m))
      | none =>
          if fs.parentOk dst then Except.ok (fs.set dst (Node.file c m))
          else Except.error "copy: no such directory"
  | _ => Except.error "copy: cannot open source"

/-- Model of `fs.CopyDir src dst` (part_001): `MkdirAll dst` then walk the
source tree duplicating directories (with their modes) and copying files.
Modelled by its net effect on success; the walk fails if the source is not
an existing directory. -/
def FS.copyDir (fs : FS) (src dst : Segs) : Except Err FS :=
  match fs.lookup src with
  | some (Node.dir _) =>
      match fs.mkdirAll dst 0o755 with
      | Except.error e => Except.error e
      | Except.ok fs1 =>
          Except.ok ⟨fs1.entries ++ (fs.entries.filterMap (fun e =>
            if strictUnder src e.1 then some (dst ++ e.1.drop src.length, e.2)
            else none))⟩
  | _ => Except.error "copy dir: cannot walk source"

/-! Character-list implementations of the string primitives the Go code
uses (`strings.Split`, `strings.HasPrefix`/`HasSuffix`,
`strings.TrimSpace`), kept executable by kernel reduction. -/

def splitOnSepAux (sep : Char) : List Char → List Char → List String
  | [], acc => [String.mk acc.reverse]
  | c :: rest, acc =>
      if c = sep then String.mk acc.reverse :: splitOnSepAux sep rest []
      else splitOnSepAux sep rest (c :: acc)

/-- `strings.Split s (String sep)` for a one-character separator. -/
def splitOnSep (sep : Char) (s : String) : List String :=
  splitOnSepAux sep s.data []

/-- `strings.HasPrefix`. -/
def strStartsWith (s pre : String) : Bool := pre.data.isPrefixOf s.data

/-- `strings.HasSuffix`. -/
def strEndsWith (s suf : String) : Bool := suf.data.isSuffixOf s.data

/-- `strings.TrimSpace` (over the ASCII whitespace the stamp files use). -/
def trimAscii (s : String) : String :=
  String.mk (((s.data.dropWhile Char.isWhitespace).reverse.dropWhile
    Char.isWhitespace).reverse)

/-- Split a string path on `/`, dropping empty and `.` segments the way
`filepath.Clean` does for the well-formed paths the engine uses
(no `..` segments occur in the verified code paths). -/
def cleanSegs (xs : List String) : List String :=
  xs.filter (fun s => !(s == "" || s == "."))

def segsOfPath (p : String) : Segs := cleanSegs (splitOnSep '/' p)

def pathStr (p : Segs) : String := String.intercalate "/" p

/-! ## Configuration data model (internal/config/config.go)

Go maps are embedded as association lists: an order-carrying snapshot of
the map, with lookup by first match.  Map iteration (for the DLL-override
string and the user environment overrides) follows the list order, which
stands in for Go's unspecified map iteration order. -/

def lookupA {α : Type} (m : List (String × α)) (k : String) : Option α :=
  (m.find? (fun e => e.1 == k)).map (·.2)

/-- `config.VersionInfo`. -/
structure VersionInfo where
  url : String := ""
  path : String := ""
  binPath : String := ""
  checkForUpdates : Bool := false
  ldLibraryPathComponents : List String := []
  wineDllPathComponents : List String := []
  pythonHome : String := ""
  pythonPath : String := ""
deriving Repr, DecidableEq

/-- `config.Global` (the version registry, `runner.json`). -/
structure Global where
  protonVersions : List (String × VersionInfo) := []
  runtimeVersions : List (String × VersionInfo) := []
  dependencyVersions : List (String × List (String × VersionInfo)) := []
deriving Repr, DecidableEq

/-- `config.UMUOptions`. -/
structure UMUOptions where
  version : String := ""
  useSystemBinary : Bool := false
  gameID : String := ""
  store : String := ""
  launchArgs : List String := []
deriving Repr, DecidableEq

/-- `config.AppDependencies`. -/
structure AppDependencies where
  dxvkVersion : String := ""
  vkd3dVersion : String := ""
  dxvkMode : String := ""
  dxvkInstallPath : String := ""
  dxvkDirectXVersion : String := ""
  vkd3dInstallPath : String := ""
deriving Repr, DecidableEq

/-- `config.App` (the per-application spec, `game.json`/`app.json`). -/
structure App where
  protonVersion : String := ""
  runtimeVersion : String := ""
  launchMethod : String := ""
  executable : String := ""
  steamAppID : String := ""
  wineArch : String := ""
  launchArgs : List String := []
  winetricks : List String := []
  umuOptions : UMUOptions := {}
  dependencies : AppDependencies := {}
  dllOverrides : List (String × String) := []
  environmentVars : List (String × String) := []
deriving Repr, DecidableEq

/-! ## Effect state and ambient world -/

/-- An external command invocation (`exec.Command`): program, argument
vector, environment block. -/
structure Cmd where
  prog : String
  args : List String := []
  env : List String := []
deriving Repr, DecidableEq

/-- Result of one HTTP GET (`http.Get`): connection failure, or a response
with a status code and a fully-read body. -/
inductive FetchResult where
  | netError
  | resp (status : Nat) (body : String)
deriving Repr, DecidableEq

/-- A decoded tar stream item: a well-formed header+payload, or a point at
which `tar.Reader.Next`/decompression fails. -/
inductive TarType where
  | dir | reg | symlink | link | other
deriving Repr, DecidableEq

structure TarEntry where
  name : String
  typeflag : TarType
  mode : Nat := 0o644
  linkname : String := ""
  content : String := ""
deriving Repr, DecidableEq

inductive TarItem where
  | entry (e : TarEntry)
  | corrupt
deriving Repr, DecidableEq

/-- Ambient inputs, fixed for one invocation of the tool: the network, the
decoded tar stream behind each openable source, the process environment,
and the exit statuses of spawned commands (0 = success). -/
structure World where
  fetch : String → FetchResult
  stream : String → List TarItem
  environ : List String := []
  getenv : String → String := fun _ => ""
  cmdExit : Cmd → Nat := fun _ => 0

/-- The mutable state threaded through the engine: the filesystem plus an
observation trace (extractions started, GETs issued, commands executed,
log lines emitted by `log.Printf`). -/
structure St where
  fs : FS
  extractions : Nat := 0
  gets : Nat := 0
  cmds : List Cmd := []
  logs : List String := []
deriving Repr, DecidableEq

abbrev M (α : Type) := St → Except Err α × St

instance : Monad M where
  pure a := fun s => (Except.ok a, s)
  bind x f := fun s =>
    match x s with
    | (Except.ok a, s1) => f a s1
    | (Except.error e, s1) => (Except.error e, s1)

theorem bind_apply {α β : Type} (x : M α) (f : α → M β) (s : St) :
    (x >>= f) s = match x s with
      | (Except.ok a, s1) => f a s1
      | (Except.error e, s1) => (Except.error e, s1) := rfl

theorem pure_apply {α : Type} (a : α) (s : St) :
    (pure a : M α) s = (Except.ok a, s) := rfl

/-! ## Archive Engine (internal/archive/archive.go) -/

/-- The stripped destination of a tar entry name (`extractTar` body):
split on the separator, skip names with at most one segment, and join the
remainder under `destPath` (`filepath.Join` cleaning empty segments). -/
def tarTargetSegs (dest : Segs) (name : String) : Option Segs :=
  let parts := splitOnSep '/' name
  if parts.length ≤ 1 then none
  else some (dest ++ cleanSegs (parts.drop 1))

/-- Processing of one tar header in `extractTar`: create the parent
directories, then reproduce directories (with mode), regular files (with
mode), and symlinks; every other type (including hard links,
`tar.TypeLink`) falls through the `switch` and is ignored.  On an error
the filesystem as mutated so far is kept. -/
def extractEntry (fs : FS) (dest : Segs) (e : TarEntry) : Except Err Unit × FS :=
  match tarTargetSegs dest e.name with
  | none => (Except.ok (), fs)
  | some target =>
      match fs.mkdirAll target.dropLast 0o755 with
      | Except.error er => (Except.error ("mkdirAll failed: " ++ er), fs)
      | Except.ok fs1 =>
          match e.typeflag with
          | TarType.dir =>
              match fs1.mkdirAll target e.mode with
              | Except.ok fs2 => (Except.ok (), fs2)
              | Except.error er => (Except.error ("mkdir dir: " ++ er), fs1)
          | TarType.reg =>
              match fs1.openCreateRW target e.content e.mode with
              | Except.ok fs2 => (Except.ok (), fs2)
              | Except.error er => (Except.error ("create file: " ++ er), fs1)
          | TarType.symlink =>
              match fs1.symlinkNew e.linkname target with
              | Except.ok fs2 => (Except.ok (), fs2)
              | Except.error er => (Except.error ("create symlink: " ++ er), fs1)
          | _ => (Except.ok (), fs1)

/-- `extractTar`: stream the items into `destPath`; a failing
`tar.Reader.Next` aborts with the partial filesystem kept. -/
def extractTar (items : List TarItem) (dest : Segs) (fs : FS) : Except Err Unit × FS :=
  match items with
  | [] => (Except.ok (), fs)
  | TarItem.corrupt :: _ => (Except.error "reading tar", fs)
  | TarItem.entry e :: rest =>
      match extractEntry fs dest e with
      | (Except.ok _, fs1) => extractTar rest dest fs1
      | (Except.error er, fs1) => (Except.error er, fs1)

/-- `getDecompressedReader` suffix dispatch: `.tar.gz`, `.tar.xz`,
`.tar.zst`, bare `.tar`; anything else is an unsupported format. -/
def supportedSuffix (sourceFilename : String) : Bool :=
  strEndsWith sourceFilename ".tar.gz" || strEndsWith sourceFilename ".tar.xz" ||
  strEndsWith sourceFilename ".tar.zst" || strEndsWith sourceFilename ".tar"

/-- `Archive.open`: an `http`-prefixed source is fetched with a single
unauthenticated GET — connection failure or a non-200 status is an error;
otherwise the source is opened as a local file. -/
def archiveOpen (w : World) (source : String) : M Unit := fun s =>
  if strStartsWith source "http" then
    let s1 := {s with gets := s.gets + 1}
    match w.fetch source with
    | FetchResult.netError => (Except.error "http get failed", s1)
    | FetchResult.resp status _ =>
        if status ≠ 200 then (Except.error "download failed", s1)
        else (Except.ok (), s1)
  else
    match s.fs.lookup (segsOfPath source) with
    | some (Node.file _ _) => (Except.ok (), s)
    | _ => (Except.error "open local file failed", s)

/-- `Archive.Extract`: empty source is rejected, the source is opened, the
decompressor is selected by suffix, and the tar stream is extracted.  The
`extractions` counter records that an extraction was started. -/
def archiveExtract (w : World) (source : String) (dest : Segs) : M Unit := fun s =>
  if source = "" then (Except.error "archive source cannot be empty", s)
  else
    match archiveOpen w source s with
    | (Except.error e, s1) => (Except.error e, s1)
    | (Except.ok _, s1) =>
        if supportedSuffix source then
          let s2 := {s1 with extractions := s1.extractions + 1}
          match extractTar (w.stream source) dest s2.fs with
          | (Except.ok _, fs2) => (Except.ok (), {s2 with fs := fs2})
          | (Except.error e, fs2) => (Except.error e, {s2 with fs := fs2})
        else (Except.error ("unsupported archive format: " ++ source), s1)

/-! ## Dependency Resolver (internal/dependency/dependency.go) -/

/-- `getInfo`: two-level registry lookup for a generic dependency. -/
def getInfo (name version : String) (g : Global) : Except Err VersionInfo :=
  match lookupA g.dependencyVersions name with
  | none => Except.error ("dependency type '" ++ name ++ "' not defined in runner.json")
  | some vmap =>
      match lookupA vmap version with
      | none => Except.error ("version '" ++ version ++ "' for '" ++ name ++
          "' not defined in runner.json")
      | some vinfo => Except.ok vinfo

/-- `ensure(name, version)`: no-op on an empty version; no-op if the target
directory exists and is non-empty; otherwise resolve the registry entry and
extract from its URL.  Note: the presence check precedes the registry
lookup, and an extraction failure is propagated without cleanup. -/
def ensure (w : World) (name version : String) (g : Global) : M Unit := fun s =>
  if version = "" then (Except.ok (), s)
  else
    let depPath := ["dependencies", name, version]
    if DirExistsAndIsNotEmpty s.fs depPath then (Except.ok (), s)
    else
      match getInfo name version g with
      | Except.error e => (Except.error e, s)
      | Except.ok vinfo =>
          match archiveExtract w vinfo.url depPath s with
          | (Except.ok _, s1) => (Except.ok (), s1)
          | (Except.error e, s1) =>
              (Except.error ("failed to acquire dependency '" ++ name ++ "': " ++ e), s1)

/-- `patchProtonForWin32`: copy the proton tree to `<version>-win32` and
rewrite `wine64` to `wine` in its `proton` script. -/
def patchProtonForWin32 (version : String) : M Unit := fun s =>
  let originalPath := ["proton", version]
  let patchedPath := ["proton", version ++ "-win32"]
  if DirExistsAndIsNotEmpty s.fs patchedPath then (Except.ok (), s)
  else
    match s.fs.copyDir originalPath patchedPath with
    | Except.error e =>
        (Except.error ("failed to copy proton directory for win32 patch: " ++ e), s)
    | Except.ok fs1 =>
        let scriptPath := patchedPath ++ ["proton"]
        match fs1.readFile scriptPath with
        | Except.error e =>
            (Except.error ("could not read proton script for patching: " ++ e),
              {s with fs := fs1})
        | Except.ok scriptContent =>
            match fs1.writeFile scriptPath (scriptContent.replace "wine64" "wine") 0o755 with
            | Except.error e =>
                (Except.error ("could not write patched proton script: " ++ e),
                  {s with fs := fs1})
            | Except.ok fs2 => (Except.ok (), {s with fs := fs2})

/-- `ensureProton`: registry lookup first; a configured local override path
is required to exist but is never extracted; otherwise the URL is required
and acquisition runs when the target directory is absent/empty or the
force-upgrade flag is set (force deletes the cached directory first).
A win32 architecture additionally patches a copy of the distribution. -/
def ensureProton (w : World) (appCfg : App) (forceUpgrade : Bool) (g : Global) :
    M Unit := fun s =>
  match lookupA g.protonVersions appCfg.protonVersion with
  | none =>
      (Except.error ("proton version '" ++ appCfg.protonVersion ++
        "' not defined in runner.json"), s)
  | some vinfo =>
      let protonPath := ["proton", appCfg.protonVersion]
      let acquired : Except Err Unit × St :=
        if vinfo.path ≠ "" then
          match s.fs.lookup (segsOfPath vinfo.path) with
          | none => (Except.error ("custom proton path does not exist: " ++ vinfo.path), s)
          | some _ => (Except.ok (), s)
        else if vinfo.url = "" then
          (Except.error ("proton version '" ++ appCfg.protonVersion ++
            "' has no URL in runner.json"), s)
        else if !DirExistsAndIsNotEmpty s.fs protonPath || forceUpgrade then
          let s1 := if forceUpgrade then {s with fs := s.fs.removeAll protonPath} else s
          match archiveExtract w vinfo.url protonPath s1 with
          | (Except.ok _, s2) => (Except.ok (), s2)
          | (Except.error e, s2) => (Except.error ("failed to acquire proton: " ++ e), s2)
        else (Except.ok (), s)
      match acquired with
      | (Except.error e, s1) => (Except.error e, s1)
      | (Except.ok _, s1) =>
          if appCfg.wineArch = "win32" then patchProtonForWin32 appCfg.protonVersion s1
          else (Except.ok (), s1)

/-- `EnsureAll`: proton, then (for umu launches with a managed binary) the
umu launcher, then dxvk, then vkd3d.  Only the proton step receives the
force-upgrade flag. -/
def EnsureAll (w : World) (appCfg : App) (forceUpgrade : Bool) (g : Global) : M Unit := do
  ensureProton w appCfg forceUpgrade g
  if appCfg.launchMethod = "umu" && !appCfg.umuOptions.useSystemBinary then
    ensure w "umu-launcher" appCfg.umuOptions.version g
  ensure w "dxvk" appCfg.dependencies.dxvkVersion g
  ensure w "vkd3d" appCfg.dependencies.vkd3dVersion g

/-! ## Container-runtime freshness protocol (unnamed/part_000, package dependency) -/

/-- The sibling `BUILD_ID.txt` URL: `url.Parse` + `Path = filepath.Dir(Path)
+ "/BUILD_ID.txt"` + `String()`, i.e. the archive URL with its last path
segment replaced, for the well-formed http(s) URLs the registry holds. -/
def buildIDURL (runtimeURL : String) : String :=
  String.intercalate "/" (splitOnSep '/' runtimeURL).dropLast ++ "/BUILD_ID.txt"

/-- `strings.TrimSpace` (over the ASCII whitespace the stamp files use). -/
def trimSpace (s : String) : String := trimAscii s

/-- `runtimeNeedsUpdate`: read the local stamp, GET the sibling
`BUILD_ID.txt` (note: the response status code is never examined), and
compare trimmed contents.  The Go function returns a `(bool, error)` pair
whose boolean the caller uses even when the error is non-nil, so it is
embedded as an infallible function returning the pair. -/
def runtimeNeedsUpdate (w : World) (runtimeDir : Segs) (runtimeURL : String) :
    St → (Bool × Option Err) × St := fun s =>
  match s.fs.readFile (runtimeDir ++ ["version.txt"]) with
  | Except.error e => ((true, some ("could not read local version file: " ++ e)), s)
  | Except.ok localVersion =>
      let s1 := {s with gets := s.gets + 1}
      match w.fetch (buildIDURL runtimeURL) with
      | FetchResult.netError => ((false, some "could not fetch remote BUILD_ID"), s1)
      | FetchResult.resp _ remoteVersion =>
          ((trimSpace localVersion ≠ trimSpace remoteVersion, none), s1)

/-- `createRuntimeShim`: write the fixed shell shim with mode 0755. -/
def runtimeShimContent : String :=
  "#!/bin/sh\nif [ \"$\x7bXDG_CURRENT_DESKTOP\x7d\" = \"gamescope\" ] || [ \"$\x7bXDG_SESSION_DESKTOP\x7d\" = \"gamescope\" ]; then\n  if [ \"$\x7bSTEAM_MULTIPLE_XWAYLANDS\x7d\" = \"1\" ]; then\n    if [ -z \"$\x7bDISPLAY\x7d\" ]; then\n      export DISPLAY=\":1\"\n    fi\n  fi\nfi\nexec \"$@\"\n"

def createRuntimeShim (fs : FS) (filePath : Segs) : Except Err FS :=
  fs.writeFile filePath runtimeShimContent 0o755

/-- `postInstallRuntimeFixup`: rename `_v2-entry-point` to
`yapl-entry-point` when present, create the shim, GET `BUILD_ID.txt` a
second time (again without a status check) and write its body to
`version.txt`. -/
def postInstallRuntimeFixup (w : World) (runtimeDir : Segs) (runtimeURL : String) :
    M Unit := fun s =>
  let entryPointPath := runtimeDir ++ ["_v2-entry-point"]
  let yaplEntryPointPath := runtimeDir ++ ["yapl-entry-point"]
  let renamed : Except Err FS :=
    match s.fs.lookup entryPointPath with
    | some _ => s.fs.rename entryPointPath yaplEntryPointPath
    | none => Except.ok s.fs
  match renamed with
  | Except.error e => (Except.error ("failed to rename entry point: " ++ e), s)
  | Except.ok fs1 =>
      match createRuntimeShim fs1 (runtimeDir ++ ["yapl-shim"]) with
      | Except.error e => (Except.error ("failed to create shim: " ++ e), {s with fs := fs1})
      | Except.ok fs2 =>
          let s2 := {s with fs := fs2, gets := s.gets + 1}
          match w.fetch (buildIDURL runtimeURL) with
          | FetchResult.netError => (Except.error "could not fetch remote BUILD_ID", s2)
          | FetchResult.resp _ remoteVersion =>
              match fs2.writeFile (runtimeDir ++ ["version.txt"]) remoteVersion 0o644 with
              | Except.error e => (Except.error e, s2)
              | Except.ok fs3 => (Except.ok (), {s2 with fs := fs3})

/-- `EnsureRuntime`: no-op without a selected runtime version; the version
must be registered with a URL; the runtime directory is created; an update
is needed when no local stamp exists, or — when update checks are enabled —
when `runtimeNeedsUpdate` says so (a probe failure is logged as a warning
and the local version is assumed current).  A needed update extracts the
archive into the runtime directory, removing the whole directory when the
extraction fails, and then runs the post-install fixup. -/
def EnsureRuntime (w : World) (appCfg : App) (g : Global) : M Unit := fun s =>
  if appCfg.runtimeVersion = "" then (Except.ok (), s)
  else
    match lookupA g.runtimeVersions appCfg.runtimeVersion with
    | none =>
        (Except.error ("runtime version '" ++ appCfg.runtimeVersion ++
          "' not defined in runner.json"), s)
    | some runtimeInfo =>
        if runtimeInfo.url = "" then
          (Except.error ("runtime version '" ++ appCfg.runtimeVersion ++
            "' has no URL specified in runner.json"), s)
        else
          let runtimeDir := ["dependencies", "runtime", appCfg.runtimeVersion]
          match s.fs.mkdirAll runtimeDir 0o755 with
          | Except.error e => (Except.error ("could not create runtime directory: " ++ e), s)
          | Except.ok fs1 =>
              let s1 := {s with fs := fs1}
              let needed : Bool × St :=
                if (fs1.lookup (runtimeDir ++ ["version.txt"])).isNone then (true, s1)
                else if runtimeInfo.checkForUpdates then
                  match runtimeNeedsUpdate w runtimeDir runtimeInfo.url s1 with
                  | ((b, some _), s2) =>
                      (b, {s2 with logs := s2.logs ++
                        ["Could not check for runtime update, proceeding with local version"]})
                  | ((b, none), s2) => (b, s2)
                else (false, s1)
              match needed with
              | (false, s2) => (Except.ok (), s2)
              | (true, s2) =>
                  match archiveExtract w runtimeInfo.url runtimeDir s2 with
                  | (Except.error e, s3) =>
                      (Except.error e, {s3 with fs := s3.fs.removeAll runtimeDir})
                  | (Except.ok _, s3) =>
                      match postInstallRuntimeFixup w runtimeDir runtimeInfo.url s3 with
                      | (Except.error e, s4) =>
                          (Except.error ("failed post-install fixup: " ++ e), s4)
                      | (Except.ok _, s4) => (Except.ok (), s4)

/-! ## Launch Orchestrator (internal/command/command.go) -/

def getWineArch (appCfg : App) : String :=
  if appCfg.wineArch ≠ "" then appCfg.wineArch else "win64"

/-- `getProtonInfo` (`log.Fatalf` on a missing version is embedded as an
error result terminating the operation). -/
def getProtonInfo (appCfg : App) (g : Global) : Except Err VersionInfo :=
  match lookupA g.protonVersions appCfg.protonVersion with
  | none =>
      Except.error ("proton version '" ++ appCfg.protonVersion ++
        "' not defined in runner.json")
  | some vinfo => Except.ok vinfo

def getProtonPath (version : String) (vinfo : VersionInfo) (wineArch : String) : Segs :=
  if vinfo.path ≠ "" then segsOfPath vinfo.path
  else if wineArch = "win32" then ["proton", version ++ "-win32"]
  else ["proton", version]

def getProtonScriptPath (appCfg : App) (g : Global) (wineArch : String) :
    Except Err Segs :=
  match getProtonInfo appCfg g with
  | Except.error e => Except.error e
  | Except.ok vinfo =>
      Except.ok (getProtonPath appCfg.protonVersion vinfo wineArch ++ ["proton"])

/-- `getWineExecutablePath`: search `wine`/`wine64` (by architecture) over
`files/bin`, `dist/bin`, `bin` under the proton base path, in source
order. -/
def getWineExecutablePath (fs : FS) (protonBasePath : Segs) (wineArch : String) :
    Except Err Segs :=
  let binariesToSearch := if wineArch = "win32" then ["wine"] else ["wine64", "wine"]
  let possibleBasePaths :=
    [protonBasePath ++ ["files", "bin"], protonBasePath ++ ["dist", "bin"],
      protonBasePath ++ ["bin"]]
  match binariesToSearch.findSome? (fun binName =>
      possibleBasePaths.findSome? (fun basePath =>
        if (fs.lookup (basePath ++ [binName])).isSome then some (basePath ++ [binName])
        else none)) with
  | some p => Except.ok p
  | none =>
      Except.error ("could not find a suitable wine/wine64 executable in " ++
        pathStr protonBasePath ++ " for architecture " ++ wineArch)

/-- `buildDllOverridesString`: `name=setting` pairs joined by `;`, in map
iteration order (here: list order). -/
def buildDllOverridesString (overrides : List (String × String)) : String :=
  if overrides.isEmpty then ""
  else String.intercalate ";" (overrides.map (fun kv => kv.1 ++ "=" ++ kv.2))

/-- `buildProtonEnv`: the shared launch environment, in exactly the append
order of the source — inherited process environment, library/DLL search
paths filtered to existing directories, PATH, prefix/arch/compat
descriptors, Steam identity variables, `UMU_ID`, then the user environment
overrides, then the DLL-override string, then the debug logging flags. -/
def buildProtonEnv (w : World) (fs : FS) (absPrefix protonBasePath : Segs)
    (appCfg : App) (vinfo : VersionInfo) (debug : Bool) : List String :=
  let clientInstallPath := pathStr ((absPrefix ++ segsOfPath appCfg.executable).dropLast)
  let env := w.environ
  let newLdPaths := vinfo.ldLibraryPathComponents.filterMap (fun component =>
    let fullPath := protonBasePath ++ segsOfPath component
    if (fs.lookup fullPath).isSome then some (pathStr fullPath) else none)
  let newWineDllPaths := vinfo.wineDllPathComponents.filterMap (fun component =>
    let fullPath := protonBasePath ++ segsOfPath component
    if (fs.lookup fullPath).isSome then some (pathStr fullPath) else none)
  let newLdPaths :=
    if w.getenv "LD_LIBRARY_PATH" ≠ "" then newLdPaths ++ [w.getenv "LD_LIBRARY_PATH"]
    else newLdPaths
  let env :=
    if newLdPaths.length > 0 then
      env ++ ["LD_LIBRARY_PATH=" ++ String.intercalate ":" newLdPaths]
    else env
  let env :=
    if newWineDllPaths.length > 0 then
      env ++ ["WINEDLLPATH=" ++ String.intercalate ":" newWineDllPaths]
    else env
  let env := env ++ ["PATH=" ++ String.intercalate ":"
    [pathStr (protonBasePath ++ ["bin"]), pathStr (protonBasePath ++ ["dist", "bin"]),
      w.getenv "PATH"]]
  let env := env ++ ["WINEARCH=" ++ getWineArch appCfg]
  let env := env ++ ["WINEPREFIX=" ++ pathStr absPrefix]
  let env := env ++ ["STEAM_COMPAT_DATA_PATH=" ++ pathStr absPrefix]
  let env := env ++ ["STEAM_COMPAT_CLIENT_INSTALL_PATH=" ++ clientInstallPath]
  let env := env ++ ["STEAM_COMPAT_TOOL_PATHS=" ++ pathStr protonBasePath]
  let env := env ++ ["STEAM_COMPAT_MOUNTS=" ++ pathStr protonBasePath]
  let env := env ++ ["STEAM_COMPAT_SHADER_PATH=" ++ pathStr (absPrefix ++ ["shadercache"])]
  let env := env ++ ["PROTON_VERB=waitforexitandrun"]
  let idPair :=
    if appCfg.steamAppID ≠ "" && appCfg.steamAppID ≠ "0" then
      (["STEAM_COMPAT_APP_ID=" ++ appCfg.steamAppID, "SteamAppId=" ++ appCfg.steamAppID,
        "SteamGameId=" ++ appCfg.steamAppID], appCfg.steamAppID)
    else ([], "yapl-default")
  let env := env ++ idPair.1
  let env := env ++ ["UMU_ID=" ++ idPair.2]
  let env := env ++ appCfg.environmentVars.map (fun kv => kv.1 ++ "=" ++ kv.2)
  let overrideStr := buildDllOverridesString appCfg.dllOverrides
  let env := if overrideStr ≠ "" then env ++ ["WINEDLLOVERRIDES=" ++ overrideStr] else env
  if debug then env ++ ["PROTON_LOG=1", "DXVK_LOG_LEVEL=info"] else env

/-- `executeCommand`: run the command with inherited standard streams; a
non-zero exit is logged but the function always returns nil. -/
def executeCommand (w : World) (c : Cmd) : M Unit := fun s =>
  let s1 := {s with cmds := s.cmds ++ [c]}
  if w.cmdExit c ≠ 0 then
    (Except.ok (), {s1 with logs := s1.logs ++ ["Application exited with an error"]})
  else (Except.ok (), s1)

/-- The best-effort `steam_appid.txt` write shared by the launch
strategies: failure is logged, never fatal. -/
def writeSteamAppID (absPrefix : Segs) (appCfg : App) : St → St := fun s =>
  let fullExePath := absPrefix ++ segsOfPath appCfg.executable
  let appIDPath := fullExePath.dropLast ++ ["steam_appid.txt"]
  match s.fs.writeFile appIDPath appCfg.steamAppID 0o644 with
  | Except.ok fs1 => {s with fs := fs1}
  | Except.error _ =>
      {s with logs := s.logs ++ ["Warning: Failed to write steam_appid.txt"]}

/-- `RunDirectly`: launch through the distribution's `wine`/`wine64`
binary with the full shared environment. -/
def RunDirectly (w : World) (prefixPath : Segs) (appCfg : App) (g : Global)
    (isSteam debug : Bool) : M Unit := fun s =>
  if isSteam then
    (Except.error
      "--steam flag is not compatible with 'direct' launch_method. Use 'container' instead", s)
  else
    let absPrefix := prefixPath
    match getProtonInfo appCfg g with
    | Except.error e => (Except.error e, s)
    | Except.ok protonVersionInfo =>
        let wineArch := getWineArch appCfg
        let protonBasePath := getProtonPath appCfg.protonVersion protonVersionInfo wineArch
        match getWineExecutablePath s.fs protonBasePath wineArch with
        | Except.error e => (Except.error e, s)
        | Except.ok wineExecutablePath =>
            let s1 :=
              if appCfg.steamAppID ≠ "" && appCfg.steamAppID ≠ "0" then
                writeSteamAppID absPrefix appCfg s
              else s
            let fullExePath := absPrefix ++ segsOfPath appCfg.executable
            executeCommand w
              { prog := pathStr wineExecutablePath
                args := pathStr fullExePath :: appCfg.launchArgs
                env := buildProtonEnv w s1.fs absPrefix protonBasePath appCfg
                  protonVersionInfo debug } s1

/-- `RunInContainer`: launch through the container runtime's entry point,
shim, and the proton script. -/
def RunInContainer (w : World) (prefixPath : Segs) (appCfg : App) (g : Global)
    (debug : Bool) : M Unit := fun s =>
  if appCfg.runtimeVersion = "" then
    (Except.error "launch_method 'container' requires 'runtime_version' to be set in game.json", s)
  else
    match getProtonInfo appCfg g with
    | Except.error e => (Except.error e, s)
    | Except.ok protonVersionInfo =>
        let wineArch := getWineArch appCfg
        let protonBasePath := getProtonPath appCfg.protonVersion protonVersionInfo wineArch
        let absPrefix := prefixPath
        let runtimeDir := ["dependencies", "runtime", appCfg.runtimeVersion]
        let entryPointPath := runtimeDir ++ ["yapl-entry-point"]
        let shimPath := runtimeDir ++ ["yapl-shim"]
        let protonScriptPath := protonBasePath ++ ["proton"]
        if (s.fs.lookup protonScriptPath).isNone then
          (Except.error
            "could not find 'proton' script. The 'container' method requires a full Proton build (like GE-Proton), not a Wine-only build", s)
        else
          let s1 :=
            if appCfg.steamAppID ≠ "" && appCfg.steamAppID ≠ "0" then
              writeSteamAppID absPrefix appCfg s
            else s
          let fullExePath := absPrefix ++ segsOfPath appCfg.executable
          let protonVerb := "waitforexitandrun"
          executeCommand w
            { prog := pathStr entryPointPath
              args := ["--verb=" ++ protonVerb, "--", pathStr shimPath,
                pathStr protonScriptPath, protonVerb, pathStr fullExePath] ++
                appCfg.launchArgs
              env := buildProtonEnv w s1.fs absPrefix protonBasePath appCfg
                protonVersionInfo debug } s1

/-- `RunWithUMU`: launch through the umu helper launcher (system binary or
the managed install), adding `PROTONPATH`/`GAMEID`/`STORE` to the shared
environment. -/
def RunWithUMU (w : World) (prefixPath : Segs) (appCfg : App) (g : Global)
    (debug : Bool) : M Unit := fun s =>
  let umuRunPath : Except Err String :=
    if !appCfg.umuOptions.useSystemBinary then
      let ver := appCfg.umuOptions.version
      if ver = "" then Except.error "'umu_options.version' must be set"
      else
        match (lookupA g.dependencyVersions "umu-launcher").bind (fun m => lookupA m ver) with
        | none =>
            Except.error ("umu-launcher version '" ++ ver ++ "' not defined in runner.json")
        | some vinfo =>
            Except.ok (pathStr (["dependencies", "umu-launcher", ver] ++
              segsOfPath vinfo.binPath ++ ["umu-run"]))
    else Except.ok "umu-run"
  match umuRunPath with
  | Except.error e => (Except.error e, s)
  | Except.ok umuRun =>
      let absPrefix := prefixPath
      match getProtonInfo appCfg g with
      | Except.error e => (Except.error e, s)
      | Except.ok protonVersionInfo =>
          let wineArch := getWineArch appCfg
          let protonBasePath := getProtonPath appCfg.protonVersion protonVersionInfo wineArch
          let fullExePath := absPrefix ++ segsOfPath appCfg.executable
          let env := buildProtonEnv w s.fs absPrefix protonBasePath appCfg
            protonVersionInfo debug
          let env := env ++ ["PROTONPATH=" ++ pathStr protonBasePath]
          let env :=
            if appCfg.umuOptions.gameID ≠ "" then
              env ++ ["GAMEID=" ++ appCfg.umuOptions.gameID]
            else env
          let env :=
            if appCfg.umuOptions.store ≠ "" then env ++ ["STORE=" ++ appCfg.umuOptions.store]
            else env
          executeCommand w
            { prog := umuRun
              args := pathStr fullExePath :: (appCfg.launchArgs ++
                appCfg.umuOptions.launchArgs)
              env := env } s

/-- `restructureProtonPrefix`: when bootstrap produced a nested `pfx`
working directory, move its contents up to the prefix root, remove the
now-empty directory and replace it with a self-referential symlink. -/
def restructureProtonPrefix (absPrefix : Segs) : M Unit := fun s =>
  let pfxDir := absPrefix ++ ["pfx"]
  match s.fs.lookup pfxDir with
  | none => (Except.ok (), s)
  | some (Node.dir _) =>
      let childNames := s.fs.entries.filterMap (fun e =>
        if e.1.length = pfxDir.length + 1 && pfxDir.isPrefixOf e.1 then e.1.getLast?
        else none)
      let moved : Except Err FS := childNames.foldlM (fun acc n =>
        acc.rename (pfxDir ++ [n]) (absPrefix ++ [n])) s.fs
      match moved with
      | Except.error e => (Except.error ("failed to move '" ++ e ++ "'"), s)
      | Except.ok fs1 =>
          match fs1.removeOne pfxDir with
          | Except.error e =>
              (Except.error ("failed to remove temporary pfx directory: " ++ e),
                {s with fs := fs1})
          | Except.ok fs2 =>
              match fs2.symlinkNew "." pfxDir with
              | Except.error e =>
                  (Except.error ("failed to create pfx symlink: " ++ e), {s with fs := fs2})
              | Except.ok fs3 => (Except.ok (), {s with fs := fs3})
  | some _ => (Except.error "could not read pfx dir", s)

/-- `InitializePrefix` (internal/command/command.go): create the prefix
directory, return immediately when the `system.reg` sentinel is present,
otherwise bootstrap — win32 directly through `winecfg`, 64-bit through the
proton script's `run` verb followed by layout normalization — and finish by
launching the file explorer through the configured strategy. -/
def InitializePrefix (w : World) (prefixPath : Segs) (appCfg : App) (g : Global)
    (debug : Bool) : M Unit := fun s =>
  let absPrefix := prefixPath
  match s.fs.mkdirAll absPrefix 0o755 with
  | Except.error e => (Except.error e, s)
  | Except.ok fs1 =>
      let s1 := {s with fs := fs1}
      if (fs1.lookup (absPrefix ++ ["system.reg"])).isSome then (Except.ok (), s1)
      else
        let wineArch := getWineArch appCfg
        match getProtonInfo appCfg g with
        | Except.error e => (Except.error e, s1)
        | Except.ok protonVersionInfo =>
            let protonBasePath := getProtonPath appCfg.protonVersion protonVersionInfo wineArch
            let explorerCfg := {appCfg with executable := "drive_c/windows/explorer.exe"}
            if wineArch = "win32" then
              match getWineExecutablePath fs1 protonBasePath wineArch with
              | Except.error e => (Except.error e, s1)
              | Except.ok wineExecutablePath =>
                  let c : Cmd :=
                    { prog := pathStr wineExecutablePath
                      args := ["winecfg"]
                      env := w.environ ++ ["WINEPREFIX=" ++ pathStr absPrefix,
                        "WINEARCH=" ++ wineArch] }
                  let s2 := {s1 with cmds := s1.cmds ++ [c]}
                  if w.cmdExit c ≠ 0 then
                    (Except.error "win32 prefix creation with winecfg failed", s2)
                  else
                    match s2.fs.mkdirAll (absPrefix ++ ["drive_c", "windows", "syswow64"])
                        0o755 with
                    | Except.error e =>
                        (Except.error ("failed to create syswow64 directory: " ++ e), s2)
                    | Except.ok fs2 =>
                        match fs2.symlinkNew "." (absPrefix ++ ["pfx"]) with
                        | Except.error e =>
                            (Except.error ("failed to create pfx symlink: " ++ e),
                              {s2 with fs := fs2})
                        | Except.ok fs3 =>
                            RunDirectly w prefixPath explorerCfg g false debug
                              {s2 with fs := fs3}
            else
              let afterInit : Except Err Unit × St :=
                if appCfg.protonVersion ≠ "system" then
                  let protonScriptPath := protonBasePath ++ ["proton"]
                  if (fs1.lookup protonScriptPath).isNone then
                    (Except.error ("could not find 'proton' script at " ++
                      pathStr protonScriptPath), s1)
                  else
                    let initCmd : Cmd :=
                      { prog := pathStr protonScriptPath
                        args := ["run", "cmd", "/c", "echo", "Initializing prefix..."]
                        env := buildProtonEnv w fs1 absPrefix protonBasePath appCfg
                          protonVersionInfo false }
                    let s2 := {s1 with cmds := s1.cmds ++ [initCmd]}
                    if w.cmdExit initCmd ≠ 0 then
                      (Except.error "prefix initialization with proton script failed",
                        {s2 with logs := s2.logs ++ ["Prefix creation output"]})
                    else restructureProtonPrefix absPrefix s2
                else (Except.ok (), s1)
              match afterInit with
              | (Except.error e, s2) => (Except.error e, s2)
              | (Except.ok _, s2) =>
                  if appCfg.launchMethod = "direct" then
                    RunDirectly w prefixPath explorerCfg g false debug s2
                  else RunInContainer w prefixPath explorerCfg g debug s2

/-! ## Application driver (unnamed/part_002, package app) -/

/-- `app.App`: the runtime state for one game/application. -/
structure AppState where
  appType : String
  name : String
  forceUpgrade : Bool := false
  debugMode : Bool := false
  isSteamPrefix : Bool := false
  globalConfig : Global := {}
  appConfig : App := {}
deriving Repr

/-- `app.New`: derived directories. -/
def AppState.appDir (a : AppState) : Segs := [a.appType, a.name]

def AppState.prefixPath (a : AppState) : Segs := [a.appType, a.name, "prefix"]

/-- `App.Run` (unnamed/part_002): ensure dependencies and the runtime,
initialize the prefix, then dispatch on the launch-method selector — the
empty selector defaults to "container", an unrecognized selector is
rejected with an error naming it.  (The snapshot calls the three-argument
`InitializePrefix` of its era; the current four-argument initializer is
used here with the app's debug flag, which does not affect the dispatch
logic this model verifies.) -/
def AppRun (w : World) (a : AppState) : M Unit := do
  EnsureAll w a.appConfig a.forceUpgrade a.globalConfig
  EnsureRuntime w a.appConfig a.globalConfig
  InitializePrefix w a.prefixPath a.appConfig a.globalConfig a.debugMode
  let method := if a.appConfig.launchMethod = "" then "container" else a.appConfig.launchMethod
  if method = "direct" then
    RunDirectly w a.prefixPath a.appConfig a.globalConfig a.isSteamPrefix a.debugMode
  else if method = "container" then
    RunInContainer w a.prefixPath a.appConfig a.globalConfig a.debugMode
  else if method = "umu" then
    RunWithUMU w a.prefixPath a.appConfig a.globalConfig a.debugMode
  else
    fun s => (Except.error ("unknown launch_method: '" ++ method ++
      "'. Please use 'direct', 'container', or 'umu'"), s)

/-! ## Basic filesystem lemmas -/

deriving instance DecidableEq for Except

theorem find?_filter_of_imp {α : Type} (l : List α) (f g : α → Bool)
    (h : ∀ x, f x = true → g x = true) : (l.filter g).find? f = l.find? f := by
  induction l with
  | nil => rfl
  | cons a t ih =>
      cases hf : f a with
      | true =>
          have hg := h a hf
          simp [List.filter_cons, hg, List.find?, hf]
      | false =>
          cases hg : g a with
          | true => simp [List.filter_cons, hg, List.find?, hf, ih]
          | false => simp [List.filter_cons, hg, List.find?, hf, ih]

theorem lookup_set_self (fs : FS) (p : Segs) (n : Node) :
    (fs.set p n).lookup p = some n := by
  simp [FS.set, FS.lookup, List.find?]

theorem lookup_set_ne (fs : FS) (p q : Segs) (n : Node) (h : ¬q = p) :
    (fs.set p n).lookup q = fs.lookup q := by
  unfold FS.set FS.lookup
  have hbeq : ((p, n).1 == q) = false := by
    simp only [beq_eq_false_iff_ne, ne_eq]
    exact fun hc => h hc.symm
  simp only [List.find?, hbeq]
  rw [find?_filter_of_imp]
  intro x hx
  have : x.1 = q := eq_of_beq hx
  simp [this, h]

theorem isPrefixOf_self (p : Segs) : p.isPrefixOf p = true := by
  induction p with
  | nil => rfl
  | cons a t ih => simp [List.isPrefixOf, ih]

theorem removeAll_lookup (fs : FS) (p q : Segs) (h : p.isPrefixOf q = true) :
    (fs.removeAll p).lookup q = none := by
  unfold FS.removeAll FS.lookup
  rw [Option.map_eq_none', List.find?_eq_none]
  intro x hx hbeq
  rw [List.mem_filter] at hx
  have hq : x.1 = q := by exact eq_of_beq hbeq
  rw [hq, h] at hx
  simpa using hx.2

theorem removeAll_existsUnder (fs : FS) (p : Segs) :
    (fs.removeAll p).existsUnder p = false := by
  unfold FS.removeAll FS.existsUnder
  rw [← Bool.not_eq_true, List.any_eq_true]
  rintro ⟨x, hx, hsu⟩
  rw [List.mem_filter] at hx
  have hpref : p.isPrefixOf x.1 = true := by
    unfold strictUnder at hsu
    simp only [Bool.and_eq_true] at hsu
    exact hsu.1
  rw [hpref] at hx
  simpa using hx.2

/-! ## Claim C1 — failure atomicity of component acquisition -/

/-- C1 counterexample fixture: a download that yields one good tar entry
and then a corrupt stream. -/
def c1World : World :=
  { fetch := fun _ => FetchResult.resp 200 ""
    stream := fun _ =>
      [TarItem.entry {name := "top/a", typeflag := TarType.reg, content := "x"},
        TarItem.corrupt] }

def c1Registry : Global :=
  { dependencyVersions := [("dxvk", [("1.0", {url := "http://h/d.tar.gz"})])] }

/-- C1 counterexample: for a generic dependency, an acquisition failure
does NOT remove the partially-populated target directory — after the
failing `ensure` the directory still holds the partially-extracted file
and is visible as installed to a later presence check. -/
theorem ensure_failure_leaves_partial_state :
    (ensure c1World "dxvk" "1.0" c1Registry {fs := FS.empty}).1 =
      Except.error "failed to acquire dependency 'dxvk': reading tar" ∧
    (ensure c1World "dxvk" "1.0" c1Registry {fs := FS.empty}).2.fs.lookup
      ["dependencies", "dxvk", "1.0", "a"] = some (Node.file "x" 420) ∧
    DirExistsAndIsNotEmpty
      (ensure c1World "dxvk" "1.0" c1Registry {fs := FS.empty}).2.fs
      ["dependencies", "dxvk", "1.0"] = true ∧
    (ensure c1World "dxvk" "1.0" c1Registry
      (ensure c1World "dxvk" "1.0" c1Registry {fs := FS.empty}).2).1 =
      Except.ok () := by
  decide

/-- C1 (amended): the cleanup-on-acquisition-failure guarantee holds for
the container-runtime component: when the runtime archive extraction
fails, `EnsureRuntime` removes the whole runtime directory before
propagating the error, so the component directory is fully absent. -/
theorem EnsureRuntime_failure_removes_runtime_dir
    (w : World) (appCfg : App) (g : Global) (s : St) (rinfo : VersionInfo)
    (fs1 : FS) (e : Err) (s3 : St)
    (hv : ¬appCfg.runtimeVersion = "")
    (hreg : lookupA g.runtimeVersions appCfg.runtimeVersion = some rinfo)
    (hurl : ¬rinfo.url = "")
    (hmk : s.fs.mkdirAll ["dependencies", "runtime", appCfg.runtimeVersion] 0o755 =
      Except.ok fs1)
    (hstamp : fs1.lookup
      (["dependencies", "runtime", appCfg.runtimeVersion] ++ ["version.txt"]) = none)
    (hext : archiveExtract w rinfo.url ["dependencies", "runtime", appCfg.runtimeVersion]
      {s with fs := fs1} = (Except.error e, s3)) :
    EnsureRuntime w appCfg g s =
      (Except.error e,
        {s3 with fs :=
          s3.fs.removeAll ["dependencies", "runtime", appCfg.runtimeVersion]}) ∧
    (EnsureRuntime w appCfg g s).2.fs.lookup
      ["dependencies", "runtime", appCfg.runtimeVersion] = none ∧
    (EnsureRuntime w appCfg g s).2.fs.existsUnder
      ["dependencies", "runtime", appCfg.runtimeVersion] = false := by
  have hmain : EnsureRuntime w appCfg g s =
      (Except.error e,
        {s3 with fs :=
          s3.fs.removeAll ["dependencies", "runtime", appCfg.runtimeVersion]}) := by
    unfold EnsureRuntime
    simp only [hv, if_false, hreg, hurl, hmk, hstamp, Option.isNone_none, if_true, hext]
  refine ⟨hmain, ?_, ?_⟩
  · rw [hmain]
    exact removeAll_lookup _ _ _ (isPrefixOf_self _)
  · rw [hmain]
    exact removeAll_existsUnder _ _

def c1aWorld : World :=
  { fetch := fun _ => FetchResult.resp 200 ""
    stream := fun _ => [TarItem.corrupt] }

def c1aRegistry : Global :=
  { runtimeVersions := [("v1", {url := "http://h/rt.tar.xz", checkForUpdates := false})] }

def c1aCfg : App := { runtimeVersion := "v1" }

def c1aFS1 : FS :=
  ⟨[(["dependencies", "runtime", "v1"], Node.dir 0o755),
    (["dependencies", "runtime"], Node.dir 0o755),
    (["dependencies"], Node.dir 0o755)]⟩

/-- C1 witness: the amended cleanup theorem evaluated on a concrete failing
runtime installation. -/
theorem EnsureRuntime_failure_removes_runtime_dir_witness :
    EnsureRuntime c1aWorld c1aCfg c1aRegistry {fs := FS.empty} =
      (Except.error "reading tar",
        {fs := c1aFS1.removeAll ["dependencies", "runtime", "v1"],
          extractions := 1, gets := 1}) ∧
    (EnsureRuntime c1aWorld c1aCfg c1aRegistry {fs := FS.empty}).2.fs.lookup
      ["dependencies", "runtime", "v1"] = none ∧
    (EnsureRuntime c1aWorld c1aCfg c1aRegistry {fs := FS.empty}).2.fs.existsUnder
      ["dependencies", "runtime", "v1"] = false :=
  EnsureRuntime_failure_removes_runtime_dir c1aWorld c1aCfg c1aRegistry
    {fs := FS.empty} {url := "http://h/rt.tar.xz"} c1aFS1 "reading tar"
    {fs := c1aFS1, extractions := 1, gets := 1}
    (by decide) (by decide) (by decide) (by decide) (by decide) (by decide)

/-! ## Claim C2 — idempotence of ensure, semantics of force-upgrade -/

theorem archiveOpen_extractions (w : World) (src : String) (s : St) :
    (archiveOpen w src s).2.extractions = s.extractions := by
  unfold archiveOpen
  split
  · cases w.fetch src with
    | netError => rfl
    | resp status body => by_cases h : status = 200 <;> simp [h]
  · split <;> rfl

theorem archiveOpen_http_ok (w : World) (src : String) (s : St) (body : String)
    (hh : strStartsWith src "http" = true)
    (hf : w.fetch src = FetchResult.resp 200 body) :
    archiveOpen w src s = (Except.ok (), {s with gets := s.gets + 1}) := by
  unfold archiveOpen
  simp [hh, hf]

theorem archiveExtract_ok_extractions (w : World) (src : String) (dest : Segs)
    (s s1 : St) (u : Unit) (h : archiveExtract w src dest s = (Except.ok u, s1)) :
    s1.extractions = s.extractions + 1 := by
  unfold archiveExtract at h
  split at h
  · exact absurd (congrArg Prod.fst h) (by simp)
  · rename_i hne
    rcases hop : archiveOpen w src s with ⟨r, s'⟩
    rw [hop] at h
    have hops : s'.extractions = s.extractions := by
      have := archiveOpen_extractions w src s
      rw [hop] at this
      exact this
    cases r with
    | error e => exact absurd (congrArg Prod.fst h) (by simp)
    | ok a =>
        simp only at h
        split at h
        · rcases het : extractTar (w.stream src) dest
              ({s' with extractions := s'.extractions + 1}).fs with ⟨rt, fs2⟩
          rw [het] at h
          cases rt with
          | ok v =>
              simp only at h
              have h2 := congrArg Prod.snd h
              simp only at h2
              rw [← h2]
              simp [hops]
          | error e => exact absurd (congrArg Prod.fst h) (by simp)
        · exact absurd (congrArg Prod.fst h) (by simp)

theorem archiveExtract_counts (w : World) (src : String) (dest : Segs) (s : St)
    (body : String) (hs : ¬src = "") (hh : strStartsWith src "http" = true)
    (hf : w.fetch src = FetchResult.resp 200 body)
    (hsuf : supportedSuffix src = true) :
    (archiveExtract w src dest s).2.extractions = s.extractions + 1 := by
  unfold archiveExtract
  rw [if_neg hs, archiveOpen_http_ok w src s body hh hf]
  simp only [hsuf, if_true]
  rcases het : extractTar (w.stream src) dest
      ({s with gets := s.gets + 1, extractions := s.extractions + 1}).fs with ⟨rt, fs2⟩
  cases rt <;> simp [het]

/-- C2 counterexample fixtures: a registry with a local-path proton and a
URL-backed dxvk, and a state in which both are already present. -/
def c2World : World :=
  { fetch := fun _ => FetchResult.resp 200 ""
    stream := fun _ => [TarItem.entry {name := "top/f", typeflag := TarType.reg, content := "y"}] }

def c2cexRegistry : Global :=
  { protonVersions := [("GE", {path := "custom/proton"})]
    dependencyVersions := [("dxvk", [("2.0", {url := "http://h/d.tar.gz"})])] }

def c2cexCfg : App :=
  { protonVersion := "GE", dependencies := {dxvkVersion := "2.0"} }

def c2PresentSt : St :=
  { fs := ⟨[(["custom", "proton"], Node.dir 0o755),
      (["dependencies", "dxvk", "2.0"], Node.dir 0o755),
      (["dependencies", "dxvk", "2.0", "x.dll"], Node.file "" 0o644)]⟩ }

/-- C2 counterexample: with the force-upgrade flag set and the dxvk
component directory already present and non-empty, the dependency pass
performs no extraction at all (the force flag is never given to the
generic `ensure`, so the claim "force-upgrade always performs an
extraction for every component kind" fails on the code). -/
theorem EnsureAll_force_skips_present_dependency :
    EnsureAll c2World c2cexCfg true c2cexRegistry c2PresentSt =
      (Except.ok (), c2PresentSt) ∧ c2PresentSt.extractions = 0 := by
  decide

/-- C2 (amended): `ensure` is idempotent — a second call with the target
directory present and non-empty is a no-op, and a fresh successful call
performs exactly one extraction; the force-upgrade flag forces an
unconditional re-extraction only for the proton component (acquired by
URL), where it always reaches the archive extraction even when the cached
directory is present. -/
theorem ensure_idempotent_and_proton_force :
    (∀ (w : World) (g : Global) (name ver : String) (s : St),
      ¬ver = "" → DirExistsAndIsNotEmpty s.fs ["dependencies", name, ver] = true →
      ensure w name ver g s = (Except.ok (), s)) ∧
    (∀ (w : World) (g : Global) (name ver : String) (s s1 : St),
      ¬ver = "" → DirExistsAndIsNotEmpty s.fs ["dependencies", name, ver] = false →
      ensure w name ver g s = (Except.ok (), s1) →
      DirExistsAndIsNotEmpty s1.fs ["dependencies", name, ver] = true →
      s1.extractions = s.extractions + 1 ∧ ensure w name ver g s1 = (Except.ok (), s1)) ∧
    (∀ (w : World) (g : Global) (appCfg : App) (s : St) (vinfo : VersionInfo)
      (body : String),
      lookupA g.protonVersions appCfg.protonVersion = some vinfo →
      vinfo.path = "" → ¬vinfo.url = "" →
      strStartsWith vinfo.url "http" = true →
      w.fetch vinfo.url = FetchResult.resp 200 body →
      supportedSuffix vinfo.url = true → ¬appCfg.wineArch = "win32" →
      (ensureProton w appCfg true g s).2.extractions = s.extractions + 1) := by
  refine ⟨?_, ?_, ?_⟩
  · intro w g name ver s hv hdir
    unfold ensure
    simp [hv, hdir]
  · intro w g name ver s s1 hv hdir h hdir1
    have hsecond : ensure w name ver g s1 = (Except.ok (), s1) := by
      unfold ensure
      simp [hv, hdir1]
    refine ⟨?_, hsecond⟩
    unfold ensure at h
    rw [if_neg hv] at h
    simp only [hdir, Bool.false_eq_true, if_false] at h
    rcases hinfo : getInfo name ver g with e | vinfo
    · rw [hinfo] at h
      exact absurd (congrArg Prod.fst h) (by simp)
    · rw [hinfo] at h
      simp only at h
      rcases hext : archiveExtract w vinfo.url ["dependencies", name, ver] s with ⟨r, s'⟩
      rw [hext] at h
      cases r with
      | ok u =>
          simp only at h
          have h2 := congrArg Prod.snd h
          simp only at h2
          rw [← h2]
          exact archiveExtract_ok_extractions w vinfo.url _ s s' u hext
      | error e => exact absurd (congrArg Prod.fst h) (by simp)
  · intro w g appCfg s vinfo body hreg hpath hurl hh hf hsuf harch
    unfold ensureProton
    rw [hreg]
    simp only [hpath, ne_eq, not_true_eq_false, if_false, hurl,
      Bool.or_true, if_true, ite_true]
    rcases hext : archiveExtract w vinfo.url ["proton", appCfg.protonVersion]
        {s with fs := s.fs.removeAll ["proton", appCfg.protonVersion]} with ⟨r, s2⟩
    have hc : s2.extractions = s.extractions + 1 := by
      have := archiveExtract_counts w vinfo.url ["proton", appCfg.protonVersion]
        {s with fs := s.fs.removeAll ["proton", appCfg.protonVersion]} body hurl hh hf hsuf
      rw [hext] at this
      exact this
    cases r with
    | ok u => simp [hext, harch, hc]
    | error e => simp [hext, hc]

def c2bS1 : St :=
  { fs := ⟨[(["dependencies", "dxvk", "2.0", "f"], Node.file "y" 420),
      (["dependencies", "dxvk", "2.0"], Node.dir 0o755),
      (["dependencies", "dxvk"], Node.dir 0o755),
      (["dependencies"], Node.dir 0o755)]⟩
    extractions := 1, gets := 1 }

def c2pRegistry : Global :=
  { protonVersions := [("GE", {url := "http://h/p.tar.gz"})] }

/-- C2 witness: the three amended conjuncts evaluated on concrete runs —
a present dxvk install is a no-op, a fresh install extracts exactly once
and is then a no-op, and a forced proton acquisition extracts even from a
populated cache. -/
theorem ensure_idempotent_and_proton_force_witness :
    ensure c2World "dxvk" "2.0" c2cexRegistry c2PresentSt =
      (Except.ok (), c2PresentSt) ∧
    (c2bS1.extractions = ({fs := FS.empty} : St).extractions + 1 ∧
      ensure c2World "dxvk" "2.0" c2cexRegistry c2bS1 = (Except.ok (), c2bS1)) ∧
    (ensureProton c2World {protonVersion := "GE"} true c2pRegistry
      {fs := FS.empty}).2.extractions = ({fs := FS.empty} : St).extractions + 1 :=
  ⟨ensure_idempotent_and_proton_force.1 c2World c2cexRegistry "dxvk" "2.0"
      c2PresentSt (by decide) (by decide),
    ensure_idempotent_and_proton_force.2.1 c2World c2cexRegistry "dxvk" "2.0"
      {fs := FS.empty} c2bS1 (by decide) (by decide) (by decide) (by decide),
    ensure_idempotent_and_proton_force.2.2 c2World c2pRegistry
      {protonVersion := "GE"} {fs := FS.empty} {url := "http://h/p.tar.gz"} ""
      (by decide) (by decide) (by decide) (by decide) (by decide) (by decide) (by decide)⟩

/-! ## Claim C3 — container-runtime freshness protocol -/

/-- C3: for an installed runtime with a local stamp and update checks
enabled: (i) equal trimmed local/remote stamps mean no re-extraction and
success; (ii) differing stamps mean a re-extraction followed by rewriting
the stamp with the remote content; (iii) a failed remote probe is degraded
to "assume the local version is current" — a logged warning and success,
with no re-extraction. -/
theorem EnsureRuntime_freshness_protocol :
    (∀ (w : World) (appCfg : App) (g : Global) (s : St) (rinfo : VersionInfo)
      (fs1 : FS) (localContent : String) (m : Nat) (st : Nat) (remote : String),
      ¬appCfg.runtimeVersion = "" →
      lookupA g.runtimeVersions appCfg.runtimeVersion = some rinfo →
      ¬rinfo.url = "" →
      s.fs.mkdirAll ["dependencies", "runtime", appCfg.runtimeVersion] 0o755 =
        Except.ok fs1 →
      fs1.lookup ["dependencies", "runtime", appCfg.runtimeVersion, "version.txt"] =
        some (Node.file localContent m) →
      rinfo.checkForUpdates = true →
      w.fetch (buildIDURL rinfo.url) = FetchResult.resp st remote →
      trimSpace localContent = trimSpace remote →
      EnsureRuntime w appCfg g s =
        (Except.ok (), {s with fs := fs1, gets := s.gets + 1})) ∧
    (∀ (w : World) (appCfg : App) (g : Global) (s : St) (rinfo : VersionInfo)
      (fs1 : FS) (localContent : String) (m : Nat) (st : Nat) (remote : String)
      (s3 : St) (mdl : Nat) (oldc : String) (oldm : Nat),
      ¬appCfg.runtimeVersion = "" →
      lookupA g.runtimeVersions appCfg.runtimeVersion = some rinfo →
      ¬rinfo.url = "" →
      s.fs.mkdirAll ["dependencies", "runtime", appCfg.runtimeVersion] 0o755 =
        Except.ok fs1 →
      fs1.lookup ["dependencies", "runtime", appCfg.runtimeVersion, "version.txt"] =
        some (Node.file localContent m) →
      rinfo.checkForUpdates = true →
      w.fetch (buildIDURL rinfo.url) = FetchResult.resp st remote →
      ¬trimSpace localContent = trimSpace remote →
      archiveExtract w rinfo.url ["dependencies", "runtime", appCfg.runtimeVersion]
        {s with fs := fs1, gets := s.gets + 1} = (Except.ok (), s3) →
      s3.fs.lookup ["dependencies", "runtime", appCfg.runtimeVersion, "_v2-entry-point"] =
        none →
      s3.fs.lookup ["dependencies", "runtime", appCfg.runtimeVersion, "yapl-shim"] = none →
      s3.fs.lookup ["dependencies", "runtime", appCfg.runtimeVersion] =
        some (Node.dir mdl) →
      s3.fs.lookup ["dependencies", "runtime", appCfg.runtimeVersion, "version.txt"] =
        some (Node.file oldc oldm) →
      EnsureRuntime w appCfg g s =
        (Except.ok (),
          {s3 with
            gets := s3.gets + 1,
            fs := (s3.fs.set
              ["dependencies", "runtime", appCfg.runtimeVersion, "yapl-shim"]
              (Node.file runtimeShimContent 0o755)).set
              ["dependencies", "runtime", appCfg.runtimeVersion, "version.txt"]
              (Node.file remote oldm)}) ∧
      (EnsureRuntime w appCfg g s).2.fs.readFile
        ["dependencies", "runtime", appCfg.runtimeVersion, "version.txt"] =
        Except.ok remote ∧
      (EnsureRuntime w appCfg g s).2.extractions = s.extractions + 1) ∧
    (∀ (w : World) (appCfg : App) (g : Global) (s : St) (rinfo : VersionInfo)
      (fs1 : FS) (localContent : String) (m : Nat),
      ¬appCfg.runtimeVersion = "" →
      lookupA g.runtimeVersions appCfg.runtimeVersion = some rinfo →
      ¬rinfo.url = "" →
      s.fs.mkdirAll ["dependencies", "runtime", appCfg.runtimeVersion] 0o755 =
        Except.ok fs1 →
      fs1.lookup ["dependencies", "runtime", appCfg.runtimeVersion, "version.txt"] =
        some (Node.file localContent m) →
      rinfo.checkForUpdates = true →
      w.fetch (buildIDURL rinfo.url) = FetchResult.netError →
      EnsureRuntime w appCfg g s =
        (Except.ok (),
          {s with
            fs := fs1,
            gets := s.gets + 1,
            logs := s.logs ++
              ["Could not check for runtime update, proceeding with local version"]})) := by
  refine ⟨?_, ?_, ?_⟩
  · intro w appCfg g s rinfo fs1 localContent m st remote hv hreg hurl hmk hstamp hchk
      hfetch heq
    unfold EnsureRuntime runtimeNeedsUpdate FS.readFile
    simp [hv, hreg, hurl, hmk, hstamp, hchk, hfetch, heq]
  · intro w appCfg g s rinfo fs1 localContent m st remote s3 mdl oldc oldm hv hreg hurl
      hmk hstamp hchk hfetch hne hext hv2 hshim hdir hvtxt
    have hmain : EnsureRuntime w appCfg g s =
        (Except.ok (),
          {s3 with
            gets := s3.gets + 1,
            fs := (s3.fs.set
              ["dependencies", "runtime", appCfg.runtimeVersion, "yapl-shim"]
              (Node.file runtimeShimContent 0o755)).set
              ["dependencies", "runtime", appCfg.runtimeVersion, "version.txt"]
              (Node.file remote oldm)}) := by
      have hwrite : s3.fs.writeFile
          ["dependencies", "runtime", appCfg.runtimeVersion, "yapl-shim"]
          runtimeShimContent 0o755 =
          Except.ok (s3.fs.set
            ["dependencies", "runtime", appCfg.runtimeVersion, "yapl-shim"]
            (Node.file runtimeShimContent 0o755)) := by
        unfold FS.writeFile FS.parentOk
        simp [hshim, hdir, List.dropLast]
      have hlook2 : (s3.fs.set
          ["dependencies", "runtime", appCfg.runtimeVersion, "yapl-shim"]
          (Node.file runtimeShimContent 0o755)).lookup
          ["dependencies", "runtime", appCfg.runtimeVersion, "version.txt"] =
          some (Node.file oldc oldm) := by
        rw [lookup_set_ne _ _ _ _ (by simp)]
        exact hvtxt
      have hwrite2 : (s3.fs.set
          ["dependencies", "runtime", appCfg.runtimeVersion, "yapl-shim"]
          (Node.file runtimeShimContent 0o755)).writeFile
          ["dependencies", "runtime", appCfg.runtimeVersion, "version.txt"]
          remote 0o644 =
          Except.ok ((s3.fs.set
            ["dependencies", "runtime", appCfg.runtimeVersion, "yapl-shim"]
            (Node.file runtimeShimContent 0o755)).set
            ["dependencies", "runtime", appCfg.runtimeVersion, "version.txt"]
            (Node.file remote oldm)) := by
        unfold FS.writeFile
        simp [hlook2]
      unfold EnsureRuntime runtimeNeedsUpdate postInstallRuntimeFixup createRuntimeShim
      simp [hv, hreg, hurl, hmk, hstamp, hchk, hfetch, hne, hext, hv2, hwrite, hwrite2,
        FS.readFile]
    refine ⟨hmain, ?_, ?_⟩
    · rw [hmain]
      simp only
      unfold FS.readFile
      rw [lookup_set_self]
    · rw [hmain]
      simp only
      have := archiveExtract_ok_extractions w rinfo.url
        ["dependencies", "runtime", appCfg.runtimeVersion]
        {s with fs := fs1, gets := s.gets + 1} s3 () hext
      simpa using this
  · intro w appCfg g s rinfo fs1 localContent m hv hreg hurl hmk hstamp hchk hfetch
    unfold EnsureRuntime runtimeNeedsUpdate FS.readFile
    simp [hv, hreg, hurl, hmk, hstamp, hchk, hfetch]

def c3Registry : Global :=
  { runtimeVersions := [("sn", {url := "http://h/rt.tar.xz", checkForUpdates := true})] }

def c3Cfg : App := { runtimeVersion := "sn" }

def c3FS : FS :=
  ⟨[(["dependencies", "runtime", "sn", "version.txt"], Node.file "abc\n" 0o644),
    (["dependencies", "runtime", "sn"], Node.dir 0o755),
    (["dependencies", "runtime"], Node.dir 0o755),
    (["dependencies"], Node.dir 0o755)]⟩

def c3WEq : World :=
  { fetch := fun _ => FetchResult.resp 200 "abc", stream := fun _ => [] }

def c3WNe : World :=
  { fetch := fun u => if u = "http://h/BUILD_ID.txt" then FetchResult.resp 200 "def"
      else FetchResult.resp 200 ""
    stream := fun _ =>
      [TarItem.entry {name := "top/data", typeflag := TarType.reg, content := "D"}] }

def c3WErr : World :=
  { fetch := fun _ => FetchResult.netError, stream := fun _ => [] }

def c3S3FS : FS :=
  ⟨[(["dependencies", "runtime", "sn", "data"], Node.file "D" 420),
    (["dependencies", "runtime", "sn", "version.txt"], Node.file "abc\n" 0o644),
    (["dependencies", "runtime", "sn"], Node.dir 0o755),
    (["dependencies", "runtime"], Node.dir 0o755),
    (["dependencies"], Node.dir 0o755)]⟩

/-- C3 witness: the three freshness scenarios on a concrete installed
runtime with local stamp `"abc\n"` — remote `"abc"` (no re-extraction),
remote `"def"` (re-extraction and stamp rewrite), and a failed probe
(warning, assume current). -/
theorem EnsureRuntime_freshness_protocol_witness :
    EnsureRuntime c3WEq c3Cfg c3Registry {fs := c3FS} =
      (Except.ok (), {fs := c3FS, gets := 0 + 1}) ∧
    (EnsureRuntime c3WNe c3Cfg c3Registry {fs := c3FS} =
      (Except.ok (),
        {fs := (c3S3FS.set ["dependencies", "runtime", "sn", "yapl-shim"]
            (Node.file runtimeShimContent 0o755)).set
            ["dependencies", "runtime", "sn", "version.txt"] (Node.file "def" 420),
          extractions := 1, gets := 2 + 1}) ∧
      (EnsureRuntime c3WNe c3Cfg c3Registry {fs := c3FS}).2.fs.readFile
        ["dependencies", "runtime", "sn", "version.txt"] = Except.ok "def" ∧
      (EnsureRuntime c3WNe c3Cfg c3Registry {fs := c3FS}).2.extractions = 0 + 1) ∧
    EnsureRuntime c3WErr c3Cfg c3Registry {fs := c3FS} =
      (Except.ok (),
        {fs := c3FS,
          gets := 0 + 1,
          logs := [] ++
            ["Could not check for runtime update, proceeding with local version"]}) :=
  ⟨EnsureRuntime_freshness_protocol.1 c3WEq c3Cfg c3Registry {fs := c3FS}
      {url := "http://h/rt.tar.xz", checkForUpdates := true} c3FS "abc\n" 420 200 "abc"
      (by decide) (by decide) (by decide) (by decide) (by decide) (by decide)
      (by decide) (by decide),
    EnsureRuntime_freshness_protocol.2.1 c3WNe c3Cfg c3Registry {fs := c3FS}
      {url := "http://h/rt.tar.xz", checkForUpdates := true} c3FS "abc\n" 420 200 "def"
      {fs := c3S3FS, extractions := 1, gets := 2} 0o755 "abc\n" 420
      (by decide) (by decide) (by decide) (by decide) (by decide) (by decide)
      (by decide) (by decide) (by decide) (by decide) (by decide) (by decide)
      (by decide),
    EnsureRuntime_freshness_protocol.2.2 c3WErr c3Cfg c3Registry {fs := c3FS}
      {url := "http://h/rt.tar.xz", checkForUpdates := true} c3FS "abc\n" 420
      (by decide) (by decide) (by decide) (by decide) (by decide) (by decide)
      (by decide)⟩

/-! ## Claim C4 — position of user environment overrides -/

def c4Cfg : App :=
  { executable := "game.exe", environmentVars := [("PROTON_LOG", "0")] }

def c4World : World :=
  { fetch := fun _ => FetchResult.netError, stream := fun _ => [] }

/-- C4 counterexample: in debug mode the computed logging flag
`PROTON_LOG=1` is appended AFTER the user override `PROTON_LOG=0` (whose
only occurrence is at index 10), so the override does not appear after
every computed entry with the same variable name and cannot shadow the
debug flags. -/
theorem buildProtonEnv_debug_flag_after_override :
    (buildProtonEnv c4World FS.empty ["p"] ["pr"] c4Cfg {} true).count "PROTON_LOG=0" = 1 ∧
    (buildProtonEnv c4World FS.empty ["p"] ["pr"] c4Cfg {} true).get? 10 =
      some "PROTON_LOG=0" ∧
    (buildProtonEnv c4World FS.empty ["p"] ["pr"] c4Cfg {} true).get? 11 =
      some "PROTON_LOG=1" := by
  decide

/-- The computed portion of `buildProtonEnv` that precedes the user
environment overrides, restated for the C4 decomposition theorem. -/
def buildProtonEnvComputedCore (w : World) (fs : FS) (absPrefix protonBasePath : Segs)
    (appCfg : App) (vinfo : VersionInfo) : List String :=
  let clientInstallPath := pathStr ((absPrefix ++ segsOfPath appCfg.executable).dropLast)
  let env := w.environ
  let newLdPaths := vinfo.ldLibraryPathComponents.filterMap (fun component =>
    let fullPath := protonBasePath ++ segsOfPath component
    if (fs.lookup fullPath).isSome then some (pathStr fullPath) else none)
  let newWineDllPaths := vinfo.wineDllPathComponents.filterMap (fun component =>
    let fullPath := protonBasePath ++ segsOfPath component
    if (fs.lookup fullPath).isSome then some (pathStr fullPath) else none)
  let newLdPaths :=
    if w.getenv "LD_LIBRARY_PATH" ≠ "" then newLdPaths ++ [w.getenv "LD_LIBRARY_PATH"]
    else newLdPaths
  let env :=
    if newLdPaths.length > 0 then
      env ++ ["LD_LIBRARY_PATH=" ++ String.intercalate ":" newLdPaths]
    else env
  let env :=
    if newWineDllPaths.length > 0 then
      env ++ ["WINEDLLPATH=" ++ String.intercalate ":" newWineDllPaths]
    else env
  let env := env ++ ["PATH=" ++ String.intercalate ":"
    [pathStr (protonBasePath ++ ["bin"]), pathStr (protonBasePath ++ ["dist", "bin"]),
      w.getenv "PATH"]]
  let env := env ++ ["WINEARCH=" ++ getWineArch appCfg]
  let env := env ++ ["WINEPREFIX=" ++ pathStr absPrefix]
  let env := env ++ ["STEAM_COMPAT_DATA_PATH=" ++ pathStr absPrefix]
  let env := env ++ ["STEAM_COMPAT_CLIENT_INSTALL_PATH=" ++ clientInstallPath]
  let env := env ++ ["STEAM_COMPAT_TOOL_PATHS=" ++ pathStr protonBasePath]
  let env := env ++ ["STEAM_COMPAT_MOUNTS=" ++ pathStr protonBasePath]
  let env := env ++ ["STEAM_COMPAT_SHADER_PATH=" ++ pathStr (absPrefix ++ ["shadercache"])]
  let env := env ++ ["PROTON_VERB=waitforexitandrun"]
  let idPair :=
    if appCfg.steamAppID ≠ "" && appCfg.steamAppID ≠ "0" then
      (["STEAM_COMPAT_APP_ID=" ++ appCfg.steamAppID, "SteamAppId=" ++ appCfg.steamAppID,
        "SteamGameId=" ++ appCfg.steamAppID], appCfg.steamAppID)
    else ([], "yapl-default")
  let env := env ++ idPair.1
  env ++ ["UMU_ID=" ++ idPair.2]

/-- C4 (amended): the shared launch environment always splits as the
computed core, then ALL user environment overrides (none is dropped, and
they follow every core computed entry), then a tail that holds only the
computed DLL-override string and the debug logging flags — the two kinds
of computed entries that are appended after the user overrides and hence
cannot be shadowed by them. -/
theorem buildProtonEnv_overrides_after_core (w : World) (fs : FS)
    (absPrefix protonBasePath : Segs) (appCfg : App) (vinfo : VersionInfo)
    (debug : Bool) :
    ∃ post,
      buildProtonEnv w fs absPrefix protonBasePath appCfg vinfo debug =
        buildProtonEnvComputedCore w fs absPrefix protonBasePath appCfg vinfo ++
          appCfg.environmentVars.map (fun kv => kv.1 ++ "=" ++ kv.2) ++ post ∧
      ∀ x ∈ post,
        x = "WINEDLLOVERRIDES=" ++ buildDllOverridesString appCfg.dllOverrides ∨
        x = "PROTON_LOG=1" ∨ x = "DXVK_LOG_LEVEL=info" := by
  by_cases hov : buildDllOverridesString appCfg.dllOverrides = ""
  · cases debug with
    | false =>
        refine ⟨[], ?_, by simp⟩
        unfold buildProtonEnv buildProtonEnvComputedCore
        simp [hov]
    | true =>
        refine ⟨["PROTON_LOG=1", "DXVK_LOG_LEVEL=info"], ?_, by
          intro x hx
          simp only [List.mem_cons, List.mem_singleton] at hx
          rcases hx with h | h | h
          · exact Or.inr (Or.inl h)
          · exact Or.inr (Or.inr h)
          · exact absurd h (by simp)⟩
        unfold buildProtonEnv buildProtonEnvComputedCore
        simp [hov]
  · cases debug with
    | false =>
        refine ⟨["WINEDLLOVERRIDES=" ++ buildDllOverridesString appCfg.dllOverrides],
          ?_, by
          intro x hx
          simp only [List.mem_singleton] at hx
          exact Or.inl hx⟩
        unfold buildProtonEnv buildProtonEnvComputedCore
        simp [hov]
    | true =>
        refine ⟨["WINEDLLOVERRIDES=" ++ buildDllOverridesString appCfg.dllOverrides,
          "PROTON_LOG=1", "DXVK_LOG_LEVEL=info"], ?_, by
          intro x hx
          simp only [List.mem_cons, List.mem_singleton] at hx
          rcases hx with h | h | h | h
          · exact Or.inl h
          · exact Or.inr (Or.inl h)
          · exact Or.inr (Or.inr h)
          · exact absurd h (by simp)⟩
        unfold buildProtonEnv buildProtonEnvComputedCore
        simp [hov]

/-! ## Claim C5 — tar entry types reproduced by extraction -/

theorem mkdirOne_preserve (fs : FS) (p : Segs) (mode : Nat) (fs' : FS)
    (h : fs.mkdirOne p mode = Except.ok fs') (q : Segs) (n : Node)
    (hq : fs.lookup q = some n) : fs'.lookup q = some n := by
  unfold FS.mkdirOne at h
  cases hl : fs.lookup p with
  | none =>
      rw [hl] at h
      simp only [Except.ok.injEq] at h
      subst h
      rw [lookup_set_ne _ _ _ _ (fun hqp => by rw [hqp, hl] at hq; exact Option.noConfusion hq)]
      exact hq
  | some nn =>
      rw [hl] at h
      cases nn with
      | dir m =>
          simp only [Except.ok.injEq] at h
          subst h
          exact hq
      | file c m => exact Except.noConfusion h
      | symlink t => exact Except.noConfusion h

theorem mkdirParts_preserve (parts : Segs) : ∀ (fs : FS) (base : Segs) (mode : Nat)
    (fs' : FS), FS.mkdirParts fs base parts mode = Except.ok fs' →
    ∀ (q : Segs) (n : Node), fs.lookup q = some n → fs'.lookup q = some n := by
  induction parts with
  | nil =>
      intro fs base mode fs' h q n hq
      unfold FS.mkdirParts at h
      simp only [Except.ok.injEq] at h
      subst h
      exact hq
  | cons x rest ih =>
      intro fs base mode fs' h q n hq
      unfold FS.mkdirParts at h
      cases hm : fs.mkdirOne (base ++ [x]) mode with
      | error e => rw [hm] at h; exact Except.noConfusion h
      | ok fs1 =>
          rw [hm] at h
          exact ih fs1 (base ++ [x]) mode fs' h q n
            (mkdirOne_preserve fs (base ++ [x]) mode fs1 hm q n hq)

theorem mkdirParts_dirs (parts : Segs) : ∀ (fs : FS) (base : Segs) (mode : Nat)
    (fs' : FS), FS.mkdirParts fs base parts mode = Except.ok fs' →
    ∀ k, k < parts.length →
    ∃ m, fs'.lookup (base ++ parts.take (k + 1)) = some (Node.dir m) := by
  induction parts with
  | nil => intro fs base mode fs' _ k hk; exact absurd hk (by simp)
  | cons x rest ih =>
      intro fs base mode fs' h k hk
      unfold FS.mkdirParts at h
      cases hm : fs.mkdirOne (base ++ [x]) mode with
      | error e => rw [hm] at h; exact Except.noConfusion h
      | ok fs1 =>
          rw [hm] at h
          have hx : ∃ m, fs1.lookup (base ++ [x]) = some (Node.dir m) := by
            unfold FS.mkdirOne at hm
            cases hl : fs.lookup (base ++ [x]) with
            | none =>
                rw [hl] at hm
                simp only [Except.ok.injEq] at hm
                subst hm
                exact ⟨mode, lookup_set_self _ _ _⟩
            | some nn =>
                rw [hl] at hm
                cases nn with
                | dir m =>
                    simp only [Except.ok.injEq] at hm
                    subst hm
                    exact ⟨m, hl⟩
                | file c m => exact Except.noConfusion hm
                | symlink t => exact Except.noConfusion hm
          cases k with
          | zero =>
              obtain ⟨m, hm1⟩ := hx
              exact ⟨m, by
                simpa using mkdirParts_preserve rest fs1 (base ++ [x]) mode fs' h
                  (base ++ [x]) (Node.dir m) hm1⟩
          | succ k' =>
              have hk' : k' < rest.length := by simpa using hk
              obtain ⟨m, hm1⟩ := ih fs1 (base ++ [x]) mode fs' h k' hk'
              exact ⟨m, by simpa [List.append_assoc] using hm1⟩

theorem mkdirParts_create_last (parts : Segs) : ∀ (fs : FS) (base : Segs) (mode : Nat),
    parts ≠ [] →
    (∀ k, k + 1 < parts.length →
      ∃ m, fs.lookup (base ++ parts.take (k + 1)) = some (Node.dir m)) →
    fs.lookup (base ++ parts) = none →
    FS.mkdirParts fs base parts mode =
      Except.ok (fs.set (base ++ parts) (Node.dir mode)) := by
  induction parts with
  | nil => intro fs base mode hne _ _; exact absurd rfl hne
  | cons x rest ih =>
      intro fs base mode _ hdirs hlast
      cases rest with
      | nil =>
          unfold FS.mkdirParts FS.mkdirOne
          rw [hlast]
          rfl
      | cons y rest' =>
          obtain ⟨m0, hm0⟩ : ∃ m, fs.lookup (base ++ [x]) = some (Node.dir m) := by
            have := hdirs 0 (by simp)
            simpa using this
          have hone : fs.mkdirOne (base ++ [x]) mode = Except.ok fs := by
            unfold FS.mkdirOne
            rw [hm0]
          unfold FS.mkdirParts
          rw [hone]
          have hdirs' : ∀ k, k + 1 < (y :: rest').length →
              ∃ m, fs.lookup ((base ++ [x]) ++ (y :: rest').take (k + 1)) =
                some (Node.dir m) := by
            intro k hk
            have := hdirs (k + 1) (by simpa using Nat.succ_lt_succ hk)
            simpa [List.append_assoc] using this
          have hlast' : fs.lookup ((base ++ [x]) ++ (y :: rest')) = none := by
            simpa [List.append_assoc] using hlast
          have hih := ih fs (base ++ [x]) mode (by simp) hdirs' hlast'
          simpa [List.append_assoc] using hih

/-- C5 counterexample: a hard-link tar entry (`tar.TypeLink`) is silently
ignored by `extractTar` — nothing is created at the stripped destination
path, and no error is reported. -/
theorem extractTar_ignores_hard_links :
    (extractTar [TarItem.entry
        {name := "top/f", typeflag := TarType.link, linkname := "top/g", mode := 0o755}]
      ["d"] FS.empty).1 = Except.ok () ∧
    (extractTar [TarItem.entry
        {name := "top/f", typeflag := TarType.link, linkname := "top/g", mode := 0o755}]
      ["d"] FS.empty).2.lookup ["d", "f"] = none := by
  decide

/-- C5 (amended): for a tar entry surviving the one-segment strip, with a
fresh target path: a regular-file entry is reproduced as a file with its
stored permission bits, a directory entry as a directory with its stored
permission bits, a symlink entry as a symlink to the stored target (no
mode is applied), and a hard-link or other-typed entry is ignored without
error — its parent directories are created but nothing appears at the
target path. -/
theorem extractTar_entry_types (fs fs1 : FS) (dest : Segs) (e : TarEntry)
    (target : Segs)
    (hts : tarTargetSegs dest e.name = some target)
    (htne : ¬target = [])
    (hmk : fs.mkdirAll target.dropLast 0o755 = Except.ok fs1)
    (hfresh : fs1.lookup target = none) :
    (e.typeflag = TarType.reg →
      extractTar [TarItem.entry e] dest fs =
        (Except.ok (), fs1.set target (Node.file e.content e.mode))) ∧
    (e.typeflag = TarType.dir →
      extractTar [TarItem.entry e] dest fs =
        (Except.ok (), fs1.set target (Node.dir e.mode))) ∧
    (e.typeflag = TarType.symlink →
      extractTar [TarItem.entry e] dest fs =
        (Except.ok (), fs1.set target (Node.symlink e.linkname))) ∧
    ((e.typeflag = TarType.link ∨ e.typeflag = TarType.other) →
      extractTar [TarItem.entry e] dest fs = (Except.ok (), fs1) ∧
      (extractTar [TarItem.entry e] dest fs).2.lookup target = none) := by
  have hpar : fs1.parentOk target = true := by
    unfold FS.parentOk
    cases hdl : target.dropLast with
    | nil => simp
    | cons a l =>
        have hlen : 0 < target.dropLast.length := by rw [hdl]; simp
        obtain ⟨m, hm⟩ := mkdirParts_dirs target.dropLast fs [] 0o755 fs1 hmk
          (target.dropLast.length - 1) (by omega)
        rw [Nat.sub_add_cancel hlen, List.take_length, List.nil_append] at hm
        rw [hdl] at hm
        simp [hm]
  refine ⟨?_, ?_, ?_, ?_⟩
  · intro htype
    have hopen : fs1.openCreateRW target e.content e.mode =
        Except.ok (fs1.set target (Node.file e.content e.mode)) := by
      unfold FS.openCreateRW
      rw [hfresh, hpar]
      simp
    simp [extractTar, extractEntry, hts, hmk, htype, hopen]
  · intro htype
    have hlen : 0 < target.length := by
      cases target with
      | nil => exact absurd rfl htne
      | cons a l => simp
    have hdirs : ∀ k, k + 1 < target.length →
        ∃ m, fs1.lookup ([] ++ target.take (k + 1)) = some (Node.dir m) := by
      intro k hk
      have hk2 : k < target.dropLast.length := by
        rw [List.length_dropLast]
        omega
      obtain ⟨m, hm⟩ := mkdirParts_dirs target.dropLast fs [] 0o755 fs1 hmk k hk2
      refine ⟨m, ?_⟩
      have hpath : target.dropLast.take (k + 1) = target.take (k + 1) := by
        rw [List.dropLast_eq_take, List.take_take]
        congr 1
        omega
      rw [List.nil_append] at hm ⊢
      rw [← hpath]
      exact hm
    have hmk2 : fs1.mkdirAll target e.mode =
        Except.ok (fs1.set target (Node.dir e.mode)) := by
      unfold FS.mkdirAll
      have := mkdirParts_create_last target fs1 [] e.mode htne hdirs
        (by rw [List.nil_append]; exact hfresh)
      rw [List.nil_append] at this
      exact this
    simp [extractTar, extractEntry, hts, hmk, htype, hmk2]
  · intro htype
    have hlink : fs1.symlinkNew e.linkname target =
        Except.ok (fs1.set target (Node.symlink e.linkname)) := by
      unfold FS.symlinkNew
      rw [hfresh, hpar]
      simp
    simp [extractTar, extractEntry, hts, hmk, htype, hlink]
  · intro htype
    have hmain : extractTar [TarItem.entry e] dest fs = (Except.ok (), fs1) := by
      rcases htype with htype | htype <;>
        simp [extractTar, extractEntry, hts, hmk, htype]
    exact ⟨hmain, by rw [hmain]; exact hfresh⟩

def c5FS1 : FS := ⟨[(["d"], Node.dir 0o755)]⟩

def c5Reg : TarEntry :=
  { name := "top/f", typeflag := TarType.reg, content := "body", mode := 0o600 }

def c5Dir : TarEntry := { name := "top/f", typeflag := TarType.dir, mode := 0o700 }

def c5Sym : TarEntry :=
  { name := "top/f", typeflag := TarType.symlink, linkname := "t" }

def c5Lnk : TarEntry := { name := "top/f", typeflag := TarType.link }

/-- C5 witness: the per-type extraction theorem evaluated on concrete
regular-file, directory, symlink, and hard-link entries `top/f` into an
empty destination. -/
theorem extractTar_entry_types_witness :
    extractTar [TarItem.entry c5Reg] ["d"] FS.empty =
      (Except.ok (), c5FS1.set ["d", "f"] (Node.file c5Reg.content c5Reg.mode)) ∧
    extractTar [TarItem.entry c5Dir] ["d"] FS.empty =
      (Except.ok (), c5FS1.set ["d", "f"] (Node.dir c5Dir.mode)) ∧
    extractTar [TarItem.entry c5Sym] ["d"] FS.empty =
      (Except.ok (), c5FS1.set ["d", "f"] (Node.symlink c5Sym.linkname)) ∧
    (extractTar [TarItem.entry c5Lnk] ["d"] FS.empty = (Except.ok (), c5FS1) ∧
      (extractTar [TarItem.entry c5Lnk] ["d"] FS.empty).2.lookup ["d", "f"] = none) :=
  ⟨(extractTar_entry_types FS.empty c5FS1 ["d"] c5Reg ["d", "f"]
      (by decide) (by decide) (by decide) (by decide)).1 (by decide),
    (extractTar_entry_types FS.empty c5FS1 ["d"] c5Dir ["d", "f"]
      (by decide) (by decide) (by decide) (by decide)).2.1 (by decide),
    (extractTar_entry_types FS.empty c5FS1 ["d"] c5Sym ["d", "f"]
      (by decide) (by decide) (by decide) (by decide)).2.2.1 (by decide),
    (extractTar_entry_types FS.empty c5FS1 ["d"] c5Lnk ["d", "f"]
      (by decide) (by decide) (by decide) (by decide)).2.2.2 (Or.inl (by decide))⟩

/-! ## Claim C6 — undefined versions fail before acquisition -/

def c6World : World :=
  { fetch := fun _ => FetchResult.netError, stream := fun _ => [] }

def c6St : St :=
  { fs := ⟨[(["dependencies", "dxvk", "bogus"], Node.dir 0o755),
      (["dependencies", "dxvk", "bogus", "x.dll"], Node.file "" 0o644)]⟩ }

/-- C6 counterexample: `ensure` checks directory presence BEFORE the
registry lookup, so a request for a version not defined in the registry
succeeds without any configuration error when the component directory
already exists non-empty. -/
theorem ensure_unknown_version_present_dir_succeeds :
    ensure c6World "dxvk" "bogus" {} c6St = (Except.ok (), c6St) := by
  decide

/-- C6 (amended): an undefined compatibility-layer version always fails
with a configuration error naming the version, before any network fetch or
extraction (the state is returned untouched); an undefined generic
dependency version fails the same way provided its component directory is
not already present non-empty — otherwise the presence check short-circuits
the lookup. -/
theorem unknown_version_fails_before_acquisition :
    (∀ (w : World) (appCfg : App) (f : Bool) (g : Global) (s : St),
      lookupA g.protonVersions appCfg.protonVersion = none →
      ensureProton w appCfg f g s =
        (Except.error ("proton version '" ++ appCfg.protonVersion ++
          "' not defined in runner.json"), s)) ∧
    (∀ (w : World) (g : Global) (name ver : String) (s : St) (e : Err),
      ¬ver = "" →
      DirExistsAndIsNotEmpty s.fs ["dependencies", name, ver] = false →
      getInfo name ver g = Except.error e →
      ensure w name ver g s = (Except.error e, s)) := by
  constructor
  · intro w appCfg f g s hreg
    unfold ensureProton
    rw [hreg]
  · intro w g name ver s e hv hdir hinfo
    unfold ensure
    simp [hv, hdir, hinfo]

/-- C6 witness: a concrete undefined proton version and a concrete
undefined dxvk version (with the directory absent) both fail with the
configuration error and leave the state untouched. -/
theorem unknown_version_fails_before_acquisition_witness :
    ensureProton c6World {protonVersion := "nonexistent"} false {} {fs := FS.empty} =
      (Except.error "proton version 'nonexistent' not defined in runner.json",
        {fs := FS.empty}) ∧
    ensure c6World "dxvk" "nope" {} {fs := FS.empty} =
      (Except.error "dependency type 'dxvk' not defined in runner.json",
        {fs := FS.empty}) :=
  ⟨unknown_version_fails_before_acquisition.1 c6World {protonVersion := "nonexistent"}
      false {} {fs := FS.empty} (by decide),
    unknown_version_fails_before_acquisition.2 c6World {} "dxvk" "nope"
      {fs := FS.empty} "dependency type 'dxvk' not defined in runner.json"
      (by decide) (by decide) (by decide)⟩

/-! ## Claim C7 — single GET semantics and status handling -/

def c7World : World :=
  { fetch := fun _ => FetchResult.resp 404 "remote-build", stream := fun _ => [] }

def c7St : St :=
  { fs := ⟨[(["dependencies", "runtime", "v", "version.txt"],
      Node.file "abc" 0o644)]⟩ }

/-- C7 counterexample: the `BUILD_ID.txt` freshness probe never examines
the response status — a 404 response is treated as a successful fetch
(no error is reported) and its body is compared as the remote version. -/
theorem runtimeNeedsUpdate_ignores_status :
    runtimeNeedsUpdate c7World ["dependencies", "runtime", "v"] "http://h/rt.tar.xz"
      c7St = ((true, none), {c7St with gets := 1}) := by
  decide

/-- C7 (amended): every remote fetch is a single unauthenticated GET with
no retry (exactly one GET is recorded per call).  For the archive
download, a connection failure or a non-200 status is a hard failure and a
200 response succeeds; the freshness probe, however, accepts a response of
any status and uses its body as the remote version. -/
theorem single_get_semantics :
    (∀ (w : World) (src : String) (s : St),
      strStartsWith src "http" = true → w.fetch src = FetchResult.netError →
      archiveOpen w src s =
        (Except.error "http get failed", {s with gets := s.gets + 1})) ∧
    (∀ (w : World) (src : String) (s : St) (st : Nat) (b : String),
      strStartsWith src "http" = true → w.fetch src = FetchResult.resp st b →
      ¬st = 200 →
      archiveOpen w src s =
        (Except.error "download failed", {s with gets := s.gets + 1})) ∧
    (∀ (w : World) (src : String) (s : St) (b : String),
      strStartsWith src "http" = true → w.fetch src = FetchResult.resp 200 b →
      archiveOpen w src s = (Except.ok (), {s with gets := s.gets + 1})) ∧
    (∀ (w : World) (dir : Segs) (url : String) (s : St) (localContent : String)
      (m : Nat) (st : Nat) (remote : String),
      s.fs.lookup (dir ++ ["version.txt"]) = some (Node.file localContent m) →
      w.fetch (buildIDURL url) = FetchResult.resp st remote →
      runtimeNeedsUpdate w dir url s =
        ((!decide (trimSpace localContent = trimSpace remote), none),
          {s with gets := s.gets + 1})) := by
  refine ⟨?_, ?_, ?_, ?_⟩
  · intro w src s hh hf
    unfold archiveOpen
    simp [hh, hf]
  · intro w src s st b hh hf hst
    unfold archiveOpen
    simp [hh, hf, hst]
  · intro w src s b hh hf
    unfold archiveOpen
    simp [hh, hf]
  · intro w dir url s localContent m st remote hstamp hfetch
    unfold runtimeNeedsUpdate FS.readFile
    simp [hstamp, hfetch]

def c7WErr : World :=
  { fetch := fun _ => FetchResult.netError, stream := fun _ => [] }

def c7WOk : World :=
  { fetch := fun _ => FetchResult.resp 200 "b", stream := fun _ => [] }

/-- C7 witness: concrete GETs — a connection failure and a 404 fail the
archive open, a 200 succeeds, and the probe accepts a 404 body as the
remote version; each call issues exactly one GET. -/
theorem single_get_semantics_witness :
    archiveOpen c7WErr "http://h/a.tar.gz" {fs := FS.empty} =
      (Except.error "http get failed", {fs := FS.empty, gets := 0 + 1}) ∧
    archiveOpen c7World "http://h/a.tar.gz" {fs := FS.empty} =
      (Except.error "download failed", {fs := FS.empty, gets := 0 + 1}) ∧
    archiveOpen c7WOk "http://h/a.tar.gz" {fs := FS.empty} =
      (Except.ok (), {fs := FS.empty, gets := 0 + 1}) ∧
    runtimeNeedsUpdate c7World ["dependencies", "runtime", "v"] "http://h/rt.tar.xz"
      c7St =
      ((!decide (trimSpace "abc" = trimSpace "remote-build"), none),
        {c7St with gets := c7St.gets + 1}) :=
  ⟨single_get_semantics.1 c7WErr "http://h/a.tar.gz" {fs := FS.empty}
      (by decide) (by decide),
    single_get_semantics.2.1 c7World "http://h/a.tar.gz" {fs := FS.empty} 404
      "remote-build" (by decide) (by decide) (by decide),
    single_get_semantics.2.2.1 c7WOk "http://h/a.tar.gz" {fs := FS.empty} "b"
      (by decide) (by decide),
    single_get_semantics.2.2.2 c7World ["dependencies", "runtime", "v"]
      "http://h/rt.tar.xz" c7St "abc" 0o644 404 "remote-build"
      (by decide) (by decide)⟩

/-! ## Claim C8 — idempotent environment initialization -/

/-- C8: when the per-application prefix is already ready (the `system.reg`
sentinel present, so the prefix directory chain exists and the `MkdirAll`
is a no-op), `InitializePrefix` returns success with the state fully
unchanged — no bootstrap command is invoked and the filesystem is
untouched. -/
theorem InitializePrefix_ready_noop (w : World) (prefixPath : Segs) (appCfg : App)
    (g : Global) (debug : Bool) (s : St)
    (hmk : s.fs.mkdirAll prefixPath 0o755 = Except.ok s.fs)
    (hsent : (s.fs.lookup (prefixPath ++ ["system.reg"])).isSome = true) :
    InitializePrefix w prefixPath appCfg g debug s = (Except.ok (), s) := by
  unfold InitializePrefix
  simp [hmk, hsent]

def c8St : St :=
  { fs := ⟨[(["games"], Node.dir 0o755),
      (["games", "g"], Node.dir 0o755),
      (["games", "g", "prefix"], Node.dir 0o755),
      (["games", "g", "prefix", "system.reg"], Node.file "reg" 0o644)]⟩ }

def c8World : World :=
  { fetch := fun _ => FetchResult.netError, stream := fun _ => [] }

/-- C8 witness: a concrete ready prefix — the initializer is a no-op. -/
theorem InitializePrefix_ready_noop_witness :
    InitializePrefix c8World ["games", "g", "prefix"] {} {} false c8St =
      (Except.ok (), c8St) :=
  InitializePrefix_ready_noop c8World ["games", "g", "prefix"] {} {} false c8St
    (by decide) (by decide)

/-! ## Claim C9 — launched-process exit status never propagated -/

theorem executeCommand_ok (w : World) (c : Cmd) (s : St) :
    (executeCommand w c s).1 = Except.ok () := by
  unfold executeCommand
  split <;> rfl

/-- C9: `executeCommand` always returns success — a non-zero exit of the
launched process is logged, not propagated — and consequently every launch
strategy, once it has resolved its binary and launched the process,
returns success regardless of the process's exit status. -/
theorem launch_exit_status_not_propagated :
    (∀ (w : World) (c : Cmd) (s : St),
      (executeCommand w c s).1 = Except.ok () ∧
      (¬w.cmdExit c = 0 →
        (executeCommand w c s).2.logs = s.logs ++ ["Application exited with an error"])) ∧
    (∀ (w : World) (prefixPath : Segs) (appCfg : App) (g : Global) (debug : Bool)
      (s : St) (vinfo : VersionInfo) (winePath : Segs),
      getProtonInfo appCfg g = Except.ok vinfo →
      getWineExecutablePath s.fs
        (getProtonPath appCfg.protonVersion vinfo (getWineArch appCfg))
        (getWineArch appCfg) = Except.ok winePath →
      (RunDirectly w prefixPath appCfg g false debug s).1 = Except.ok ()) ∧
    (∀ (w : World) (prefixPath : Segs) (appCfg : App) (g : Global) (debug : Bool)
      (s : St) (vinfo : VersionInfo) (n : Node),
      ¬appCfg.runtimeVersion = "" →
      getProtonInfo appCfg g = Except.ok vinfo →
      s.fs.lookup (getProtonPath appCfg.protonVersion vinfo (getWineArch appCfg) ++
        ["proton"]) = some n →
      (RunInContainer w prefixPath appCfg g debug s).1 = Except.ok ()) ∧
    (∀ (w : World) (prefixPath : Segs) (appCfg : App) (g : Global) (debug : Bool)
      (s : St) (vinfo : VersionInfo),
      appCfg.umuOptions.useSystemBinary = true →
      getProtonInfo appCfg g = Except.ok vinfo →
      (RunWithUMU w prefixPath appCfg g debug s).1 = Except.ok ()) := by
  refine ⟨?_, ?_, ?_, ?_⟩
  · intro w c s
    refine ⟨executeCommand_ok w c s, ?_⟩
    intro hexit
    unfold executeCommand
    simp [hexit]
  · intro w prefixPath appCfg g debug s vinfo winePath hinfo hwine
    unfold RunDirectly
    simp [hinfo, hwine, executeCommand_ok]
  · intro w prefixPath appCfg g debug s vinfo n hrv hinfo hscript
    unfold RunInContainer
    simp [hrv, hinfo, hscript, executeCommand_ok]
  · intro w prefixPath appCfg g debug s vinfo hsys hinfo
    unfold RunWithUMU
    simp [hsys, hinfo, executeCommand_ok]

def c9World : World :=
  { fetch := fun _ => FetchResult.netError, stream := fun _ => []
    cmdExit := fun _ => 1 }

def c9Registry : Global := { protonVersions := [("GE", {})] }

def c9FS : FS :=
  ⟨[(["proton", "GE", "files", "bin", "wine64"], Node.file "" 0o755),
    (["proton", "GE", "proton"], Node.file "" 0o755)]⟩

def c9DirectCfg : App := { protonVersion := "GE", executable := "game.exe" }

def c9ContainerCfg : App :=
  { protonVersion := "GE", runtimeVersion := "sn", executable := "game.exe" }

def c9UmuCfg : App :=
  { protonVersion := "GE", executable := "game.exe"
    umuOptions := {useSystemBinary := true} }

/-- C9 witness: with every launched command exiting with status 1, the
command executor and all three strategies still report success (and the
non-zero exit is logged). -/
theorem launch_exit_status_not_propagated_witness :
    ((executeCommand c9World {prog := "x"} {fs := c9FS}).1 = Except.ok () ∧
      (¬c9World.cmdExit {prog := "x"} = 0 →
        (executeCommand c9World {prog := "x"} {fs := c9FS}).2.logs =
          ({fs := c9FS} : St).logs ++ ["Application exited with an error"])) ∧
    (RunDirectly c9World ["games", "g", "prefix"] c9DirectCfg c9Registry false false
      {fs := c9FS}).1 = Except.ok () ∧
    (RunInContainer c9World ["games", "g", "prefix"] c9ContainerCfg c9Registry false
      {fs := c9FS}).1 = Except.ok () ∧
    (RunWithUMU c9World ["games", "g", "prefix"] c9UmuCfg c9Registry false
      {fs := c9FS}).1 = Except.ok () :=
  ⟨launch_exit_status_not_propagated.1 c9World {prog := "x"} {fs := c9FS},
    launch_exit_status_not_propagated.2.1 c9World ["games", "g", "prefix"] c9DirectCfg
      c9Registry false {fs := c9FS} {}
      ["proton", "GE", "files", "bin", "wine64"] (by decide) (by decide),
    launch_exit_status_not_propagated.2.2.1 c9World ["games", "g", "prefix"]
      c9ContainerCfg c9Registry false {fs := c9FS} {} (Node.file "" 0o755)
      (by decide) (by decide) (by decide),
    launch_exit_status_not_propagated.2.2.2 c9World ["games", "g", "prefix"] c9UmuCfg
      c9Registry false {fs := c9FS} {} (by decide) (by decide)⟩

/-! ## Claim C10 — launch-method dispatch in App.Run -/

/-- C10: once the setup phase (dependencies, runtime, prefix) has
succeeded, `App.Run` with an empty launch-method selector dispatches to
the container strategy, and with a non-empty selector outside
direct/container/umu it returns an error naming the selector while
executing no launch strategy (the state, including the executed-command
trace, is exactly the post-setup state). -/
theorem AppRun_dispatch :
    (∀ (w : World) (a : AppState) (s sA sB sC : St),
      a.appConfig.launchMethod = "" →
      EnsureAll w a.appConfig a.forceUpgrade a.globalConfig s = (Except.ok (), sA) →
      EnsureRuntime w a.appConfig a.globalConfig sA = (Except.ok (), sB) →
      InitializePrefix w a.prefixPath a.appConfig a.globalConfig a.debugMode sB =
        (Except.ok (), sC) →
      AppRun w a s =
        RunInContainer w a.prefixPath a.appConfig a.globalConfig a.debugMode sC) ∧
    (∀ (w : World) (a : AppState) (s sA sB sC : St),
      ¬a.appConfig.launchMethod = "" →
      ¬a.appConfig.launchMethod = "direct" →
      ¬a.appConfig.launchMethod = "container" →
      ¬a.appConfig.launchMethod = "umu" →
      EnsureAll w a.appConfig a.forceUpgrade a.globalConfig s = (Except.ok (), sA) →
      EnsureRuntime w a.appConfig a.globalConfig sA = (Except.ok (), sB) →
      InitializePrefix w a.prefixPath a.appConfig a.globalConfig a.debugMode sB =
        (Except.ok (), sC) →
      AppRun w a s =
        (Except.error ("unknown launch_method: '" ++ a.appConfig.launchMethod ++
          "'. Please use 'direct', 'container', or 'umu'"), sC)) := by
  constructor
  · intro w a s sA sB sC hm hE hR hI
    unfold AppRun
    simp only [bind_apply, hE, hR, hI, hm]
    simp
  · intro w a s sA sB sC hm hd hc hu hE hR hI
    unfold AppRun
    simp only [bind_apply, hE, hR, hI]
    simp [hm, hd, hc, hu]

def c10World : World :=
  { fetch := fun _ => FetchResult.netError, stream := fun _ => [] }

def c10Registry : Global := { protonVersions := [("GE", {path := "custom/proton"})] }

def c10FS : FS :=
  ⟨[(["custom", "proton"], Node.dir 0o755),
    (["games"], Node.dir 0o755),
    (["games", "g"], Node.dir 0o755),
    (["games", "g", "prefix"], Node.dir 0o755),
    (["games", "g", "prefix", "system.reg"], Node.file "reg" 0o644)]⟩

def c10AppDefault : AppState :=
  { appType := "games", name := "g", globalConfig := c10Registry
    appConfig := {protonVersion := "GE", executable := "game.exe"} }

def c10AppUnknown : AppState :=
  { appType := "games", name := "g", globalConfig := c10Registry
    appConfig :=
      { protonVersion := "GE"
        launchMethod := "weird"
        executable := "game.exe" } }

/-- C10 witness: with a ready prefix and a local-path proton, the empty
selector dispatches to the container strategy and the selector "weird" is
rejected with the error naming it, with no launch command executed. -/
theorem AppRun_dispatch_witness :
    AppRun c10World c10AppDefault {fs := c10FS} =
      RunInContainer c10World ["games", "g", "prefix"]
        c10AppDefault.appConfig c10Registry false {fs := c10FS} ∧
    AppRun c10World c10AppUnknown {fs := c10FS} =
      (Except.error
        "unknown launch_method: 'weird'. Please use 'direct', 'container', or 'umu'",
        {fs := c10FS}) :=
  ⟨AppRun_dispatch.1 c10World c10AppDefault {fs := c10FS} {fs := c10FS} {fs := c10FS}
      {fs := c10FS} (by decide) (by decide) (by decide) (by decide),
    AppRun_dispatch.2 c10World c10AppUnknown {fs := c10FS} {fs := c10FS} {fs := c10FS}
      {fs := c10FS} (by decide) (by decide) (by decide) (by decide) (by decide)
      (by decide) (by decide)⟩

end Yapl
